import Mathlib

/-!
Verification of the structsql statement-builder engine.

The engine (package `structsql`) converts a Go struct value into a
parameterized SQL statement plus a positional argument list.  The current
engine revision consists of:

* `structsql.go` — the `Structsql` state (type cache, dialect) and `New`;
* the helper file (`validateStruct`, `setupConv`, `getTableName`,
  `getTypeInfo`, `findIdField`);
* `update.go` (`Structsql.Update`), `delete.go` (`Structsql.Delete`);
* `ph_postgre.go` / `ph_sqlite.go` — placeholder rendering per dialect.

The embedding below translates those functions into pure Lean functions.
The `tinystring` `Conv` buffer is a plain append-only string buffer that
every builder resets on entry (`setupConv`), so each buffer write
`c.WrString(BuffOut, x)` is translated as string concatenation, in the
same order as the source writes.  Go's `[32]string` stack arrays are
translated as lists of length 32, and an out-of-bounds indexed write — a
Go runtime panic — is modelled by an `Option`-valued write whose `none`
result aborts the builder with the distinguished outcome `crash`.
-/

/-- A Go field value, as classified by the zero-value classifier.
`vNil` stands for a nil pointer/slice/map/interface, `vOpaque` for any
kind the classifier does not know (treated as non-zero / always kept). -/

inductive Value where
  | vInt (n : Int)
  | vStr (s : String)
  | vBool (b : Bool)
  | vNil
  | vOpaque
deriving DecidableEq

/-- Modelled from the spec: `tinyreflect.Value.IsZero` (external library;
its full listing is reproduced in the repository's partial-update design
document).  Numeric zero, empty string, `false` and nil are zero; unknown
kinds are reported non-zero so they are never silently dropped. -/

def Value.isZero : Value → Bool
  | .vInt n => n == 0
  | .vStr s => s == ""
  | .vBool b => !b
  | .vNil => true
  | .vOpaque => false

/-- One struct record: its Go type name and its declared fields in order,
each a (declared field name, value) pair.  An anonymous struct is
modelled by the type name `"struct"`, which is what `tinyreflect`
reports for it. -/

structure Record where
  typeName : String
  fields : List (String × Value)
deriving DecidableEq

/-- The runtime type identity of a record: its name and declared field
names.  In Go this is the canonical `*tinyreflect.Type` pointer; two
values of the same struct type share it. -/

structure StructType where
  name : String
  fieldNames : List String
deriving DecidableEq

def Record.typ (r : Record) : StructType :=
  ⟨r.typeName, r.fields.map Prod.fst⟩

/-- The argument a builder receives: `nil`, a non-struct value, or a
struct record. -/

inductive GoVal where
  | goNil
  | nonStruct
  | struct (r : Record)
deriving DecidableEq

/-- `fieldInfo` from structsql.go: one cached column name. -/

structure fieldInfo where
  Name : String
deriving DecidableEq

/-- `typeInfo` from structsql.go: the cached column list of one type. -/

structure typeInfo where
  fields : List fieldInfo
deriving DecidableEq

/-- Database type constant `PostgreSQL` (structsql.go). -/

def PostgreSQL : String := "postgres"

/-- Database type constant `SQLite` (structsql.go). -/

def SQLite : String := "sqlite"

/-- Modelled from the spec: `tinystring`'s ASCII character lowering, as
`Conv.ToLower` applies it to each buffer character. -/

def charToLower (c : Char) : Char :=
  if 65 ≤ c.toNat && c.toNat ≤ 90 then Char.ofNat (c.toNat + 32) else c

/-- `Conv.ToLower` applied to a whole buffer: lowercase every
character. -/

def strToLower (s : String) : String := String.mk (s.data.map charToLower)

/-- Decimal digit character. -/

def digitChar (n : Nat) : Char := Char.ofNat (48 + n)

/-- Decimal digit list of `n`, most significant first; `fuel` bounds the
recursion depth (any `fuel > n` is enough). -/

def natToStrAux (fuel n : Nat) : List Char :=
  match fuel with
  | 0 => []
  | fuel + 1 =>
    if n < 10 then [digitChar n]
    else natToStrAux fuel (n / 10) ++ [digitChar (n % 10)]

/-- Modelled from the spec: decimal rendering of a parameter position, as
`tinystring`'s `AnyToBuff` writes it ("the decimal digits of position"). -/

def natToStr (n : Nat) : String :=
  String.mk (natToStrAux (n + 1) n)

/-- `placeholderPostgre` (ph_postgre.go): writes `$` then the decimal
digits of `index`. -/

def placeholderPostgre (index : Nat) : String :=
  "$" ++ natToStr index

/-- `placeholderSQLite` (ph_sqlite.go): writes `?` regardless of index. -/

def placeholderSQLite (_index : Nat) : String :=
  "?"

/-- `dbType.placeholder` (structsql.go): dispatch on the database type;
any other string value writes nothing, like the Go `switch` without a
default case. -/

def phStr (d : String) (index : Nat) : String :=
  if d = PostgreSQL then placeholderPostgre index
  else if d = SQLite then placeholderSQLite index
  else ""

/-- The `Structsql` engine state (structsql.go): the per-instance type
cache and the dialect chosen at construction.  The reusable `Conv`
buffer is not part of the state because every builder fully resets it on
entry (`setupConv`). -/

structure Structsql where
  typeCache : List (StructType × typeInfo)
  dbType : String
deriving DecidableEq

/-- `New` (structsql.go): dialect defaults to PostgreSQL; the first
configuration value, when present, selects the database type. -/

def New (configs : List String) : Structsql :=
  { typeCache := [], dbType := configs.headD PostgreSQL }

/-- `validateStruct` (helper file): rejects nil input, non-struct input
and anonymous struct types (whose `Name()` is `"struct"`).  The source
returns the `*tinyreflect.Type`; the record value is in scope alongside
it in every caller, so the embedding returns the validated record and
derives the type with `Record.typ`. -/

def Structsql.validateStruct (_s : Structsql) (structTable : GoVal) :
    Except String Record :=
  match structTable with
  | .goNil => .error "no struct table provided"
  | .nonStruct => .error "input is not a struct"
  | .struct r =>
    if r.typeName = "struct" then
      .error "struct does not implement StructNamer interface"
    else
      .ok r

/-- `getTableName` (helper file): the lowercased type name, nothing
else.  The source writes the name into the reset buffer, lowercases the
buffer, and reads it back. -/

def Structsql.getTableName (_s : Structsql) (typ : StructType) : String :=
  strToLower typ.name

/-- The type descriptor `getTypeInfo` builds on a cache miss: every
declared field name, lowercased, in declared order. -/

def buildInfo (typ : StructType) : typeInfo :=
  ⟨typ.fieldNames.map (fun n => ⟨strToLower n⟩)⟩

/-- `getTypeInfo` (helper file): linear scan of the type cache keyed by
type identity; on a miss the descriptor is built from the declared
fields and appended while capacity (16) remains. -/

def Structsql.getTypeInfo (s : Structsql) (typ : StructType) :
    typeInfo × Structsql :=
  match s.typeCache.find? (fun e => decide (e.1 = typ)) with
  | some e => (e.2, s)
  | none =>
    let foundInfo := buildInfo typ
    if s.typeCache.length < 16 then
      (foundInfo, { s with typeCache := s.typeCache ++ [(typ, foundInfo)] })
    else
      (foundInfo, s)

/-- Modelled from the spec: `tinystring.IDorPrimaryKey` (external
library).  A column is the primary key if it equals `id`, or equals the
table name concatenated with `id`/`_id` in either order. -/

def IDorPrimaryKey (tableStr fieldName : String) : Bool :=
  fieldName == "id" || fieldName == tableStr ++ "id" ||
    fieldName == tableStr ++ "_id" || fieldName == "id" ++ tableStr ||
    fieldName == "id_" ++ tableStr

/-- The scan inside `findIdField`: index of the first field whose column
name satisfies the primary-key naming rule, counting from `i`. -/

def firstPK (tableStr : String) (fields : List fieldInfo) (i : Nat) :
    Option Nat :=
  match fields with
  | [] => none
  | f :: rest =>
    if IDorPrimaryKey tableStr f.Name then some i
    else firstPK tableStr rest (i + 1)

/-- `findIdField` (helper file): index of the first field satisfying the
primary-key naming rule, `-1` when absent; with `required` set, absence
is the missing-primary-key error. -/

def Structsql.findIdField (_s : Structsql) (tableStr : String)
    (fields : List fieldInfo) (required : Bool) : Except String Int :=
  let idIndex : Int :=
    match firstPK tableStr fields 0 with
    | some i => (i : Int)
    | none => -1
  if idIndex == -1 && required then
    .error "struct must have a primary key field"
  else
    .ok idIndex

/-- How a builder call ends: normal return, error return, or a Go
runtime panic (out-of-bounds array write). -/

inductive Outcome where
  | ok
  | err (msg : String)
  | crash
deriving DecidableEq

/-- The observable result of one builder call: the engine state and the
contents of the caller's two output slots afterwards, plus the outcome.
On an error return the slots hold exactly what they held before. -/

structure BuilderOut where
  state : Structsql
  sql : String
  values : List Value
  outcome : Outcome
deriving DecidableEq

/-- Default used for the (in Go unreachable) out-of-range field read. -/

def dfltField : String × Value := ("", Value.vNil)

/-- Indexed write into a fixed-size Go array: in bounds it updates the
slot, out of bounds it is a runtime panic (`none`). -/

def arrayWrite (arr : List String) (i : Nat) (v : String) :
    Option (List String) :=
  if i < arr.length then some (arr.set i v) else none

/-- The SET-collection loop of `Update` (update.go): walk the fields in
declared order; for every field other than the primary-key one whose
value is non-zero, write its cached column name at `setColumns[setCount]`
and bump `setCount`.  The loop pairs the cached column names
(`info.fields[i]`) with the record's field values (`val.Field(i)`); `i`
is the running field index. -/

def setLoop (pairs : List (fieldInfo × Value)) (idIndex : Int) (i : Nat)
    (arr : List String) (setCount : Nat) : Option (List String × Nat) :=
  match pairs with
  | [] => some (arr, setCount)
  | (f, v) :: rest =>
    if (i : Int) = idIndex then setLoop rest idIndex (i + 1) arr setCount
    else if v.isZero then setLoop rest idIndex (i + 1) arr setCount
    else
      match arrayWrite arr setCount f.Name with
      | none => none
      | some arr2 => setLoop rest idIndex (i + 1) arr2 (setCount + 1)

/-- The value-collection loop of `Update` (update.go): the values of the
non-primary-key fields that are non-zero, in declared order. -/

def updateValuesLoop (fields : List (String × Value)) (idIndex : Int)
    (i : Nat) : List Value :=
  match fields with
  | [] => []
  | (_, v) :: rest =>
    if (i : Int) = idIndex then updateValuesLoop rest idIndex (i + 1)
    else if v.isZero then updateValuesLoop rest idIndex (i + 1)
    else v :: updateValuesLoop rest idIndex (i + 1)

/-- The SET-clause rendering loop of `Update` (update.go): for slot `i`,
write `", "` when `i > 0`, then the column name, `=`, and the dialect
placeholder for position `i+1`.  Called on the first `setCount` slots of
the collection array. -/

def setClause (d : String) (cols : List String) (i : Nat) : String :=
  match cols with
  | [] => ""
  | c :: rest =>
    (if 0 < i then ", " else "") ++ c ++ "=" ++ phStr d (i + 1) ++
      setClause d rest (i + 1)

/-- The column-list rendering loop of `Insert`: comma-separated column
names. -/

def colsClause (cols : List String) (i : Nat) : String :=
  match cols with
  | [] => ""
  | c :: rest => (if 0 < i then ", " else "") ++ c ++ colsClause rest (i + 1)

/-- The placeholder-list rendering loop of the dialect-aware `Insert`,
written over the number `rem` of remaining iterations (`i` is the
current loop index): comma-separated dialect placeholders. -/

def phClauseAux (d : String) (i rem : Nat) : String :=
  match rem with
  | 0 => ""
  | rem + 1 =>
    (if 0 < i then ", " else "") ++ phStr d (i + 1) ++ phClauseAux d (i + 1) rem

/-- The placeholder-list rendering loop of the dialect-aware `Insert`:
`for i := 0; i < count; i++` emitting the dialect placeholder for
position `i+1`, comma-separated. -/

def phClause (d : String) (count i : Nat) : String :=
  phClauseAux d i (count - i)

/-- The placeholder-list rendering loop of the previous-revision
`Insert` (insert.go revisions), over remaining iterations: a literal `?`
per column, regardless of the configured dialect. -/

def qMarksClauseAux (i rem : Nat) : String :=
  match rem with
  | 0 => ""
  | rem + 1 => (if 0 < i then ", " else "") ++ "?" ++ qMarksClauseAux (i + 1) rem

/-- The placeholder-list rendering loop of the previous-revision
`Insert`: `for i := 0; i < count; i++` emitting `?`, comma-separated. -/

def qMarksClause (count i : Nat) : String :=
  qMarksClauseAux i (count - i)

/-- The column-collection loop of the previous-revision `Insert`
(insert.go revisions): copy every cached column name into the fixed
`[32]string` array. -/

def colLoop (fields : List fieldInfo) (arr : List String) (colCount : Nat) :
    Option (List String × Nat) :=
  match fields with
  | [] => some (arr, colCount)
  | f :: rest =>
    match arrayWrite arr colCount f.Name with
    | none => none
    | some arr2 => colLoop rest arr2 (colCount + 1)

/-- `Structsql.Update` (update.go): validate, resolve table name and
type descriptor, find the primary key, collect the non-zero non-key
columns into the fixed 32-slot array, and on success render
`UPDATE <table> SET col=ph, ... WHERE id=ph` with SET placeholders at
positions `1..setCount` and the WHERE placeholder at `setCount+1`; the
output values are the collected field values followed by the primary-key
value.  The output slots are written only on the success path. -/

def Structsql.Update (s : Structsql) (structTable : GoVal) (sql0 : String)
    (values0 : List Value) : BuilderOut :=
  match s.validateStruct structTable with
  | .error e => ⟨s, sql0, values0, .err e⟩
  | .ok r =>
    let tableStr := s.getTableName r.typ
    let resolved := s.getTypeInfo r.typ
    let info := resolved.1
    let s1 := resolved.2
    let numFields := info.fields.length
    if numFields = 0 then ⟨s1, sql0, values0, .err "struct has no fields"⟩
    else
      match s1.findIdField tableStr info.fields true with
      | .error e => ⟨s1, sql0, values0, .err e⟩
      | .ok idIndex =>
        match setLoop (info.fields.zip (r.fields.map Prod.snd)) idIndex 0
            (List.replicate 32 "") 0 with
        | none => ⟨s1, sql0, values0, .crash⟩
        | some (setColumns, setCount) =>
          if setCount = 0 then ⟨s1, sql0, values0, .err "no fields to update"⟩
          else
            let sql1 := "UPDATE " ++ tableStr ++ " SET " ++
              setClause s.dbType (setColumns.take setCount) 0 ++
              " WHERE id=" ++ phStr s.dbType (setCount + 1)
            let vals := updateValuesLoop r.fields idIndex 0 ++
              [(r.fields.getD idIndex.toNat dfltField).2]
            ⟨s1, sql1, vals, .ok⟩

/-- `Structsql.Delete` (delete.go): validate, resolve table name and
type descriptor, find the primary key, and render
`DELETE FROM <table> WHERE id=ph1` with the primary-key value as the
single output value. -/

def Structsql.Delete (s : Structsql) (structTable : GoVal) (sql0 : String)
    (values0 : List Value) : BuilderOut :=
  match s.validateStruct structTable with
  | .error e => ⟨s, sql0, values0, .err e⟩
  | .ok r =>
    let tableStr := s.getTableName r.typ
    let resolved := s.getTypeInfo r.typ
    let info := resolved.1
    let s1 := resolved.2
    match s1.findIdField tableStr info.fields true with
    | .error e => ⟨s1, sql0, values0, .err e⟩
    | .ok idIndex =>
      let sql1 := "DELETE FROM " ++ tableStr ++ " WHERE id=" ++
        phStr s.dbType 1
      ⟨s1, sql1, [(r.fields.getD idIndex.toNat dfltField).2], .ok⟩

/-- Modelled from the spec: the dialect-aware engine `Insert` whose
final source revision is not among the sources — only its API
declaration, its documentation and its tests are (the tests call
`s.Insert(u, &sql, &values)` and expect `$N` placeholders under the
PostgreSQL dialect and `?` under SQLite, with the table name resolved
exactly as `getTableName` resolves it for the other builders).
Validation and resolution reuse the in-source helpers; per the spec,
the statement renders every field in declared order with
dialect-rendered placeholders for positions `1..N` and appends every
field's value, in the same order, to the output value list — no field
filtering. -/

def Structsql.Insert (s : Structsql) (structTable : GoVal) (sql0 : String)
    (values0 : List Value) : BuilderOut :=
  match s.validateStruct structTable with
  | .error e => ⟨s, sql0, values0, .err e⟩
  | .ok r =>
    let tableStr := s.getTableName r.typ
    let resolved := s.getTypeInfo r.typ
    let info := resolved.1
    let s1 := resolved.2
    let numFields := info.fields.length
    if numFields = 0 then ⟨s1, sql0, values0, .err "struct has no fields"⟩
    else
      let columns := info.fields.map fieldInfo.Name
      let sql1 := "INSERT INTO " ++ tableStr ++ " (" ++
        colsClause columns 0 ++ ") VALUES (" ++
        phClause s.dbType numFields 0 ++ ")"
      let vals := (List.range numFields).map
        (fun i => (r.fields.getD i dfltField).2)
      ⟨s1, sql1, vals, .ok⟩

/-- The previous-revision engine `Insert` (insert.go, the revision with
signature `Insert(sql, values, structTable)`): anonymous types are the
ones whose `Name()` is empty in this revision; the table name is the
lowercased type name used as-is; every cached column name is copied
through the fixed `[32]string` array; the placeholders are a literal `?`
per column regardless of the configured dialect; the output values are
every field's value in declared order. -/

def Structsql.InsertPrev (s : Structsql) (sql0 : String)
    (values0 : List Value) (structTable : GoVal) : BuilderOut :=
  match structTable with
  | .goNil => ⟨s, sql0, values0, .err "no struct table provided"⟩
  | .nonStruct => ⟨s, sql0, values0, .err "input is not a struct"⟩
  | .struct r =>
    if r.typeName = "" then
      ⟨s, sql0, values0, .err "struct does not implement StructNamer interface"⟩
    else
      let tableStr := strToLower r.typeName
      let resolved := s.getTypeInfo r.typ
      let info := resolved.1
      let s1 := resolved.2
      let numFields := info.fields.length
      if numFields = 0 then ⟨s1, sql0, values0, .err "struct has no fields"⟩
      else
        match colLoop info.fields (List.replicate 32 "") 0 with
        | none => ⟨s1, sql0, values0, .crash⟩
        | some (columns, colCount) =>
          let sql1 := "INSERT INTO " ++ tableStr ++ " (" ++
            colsClause (columns.take colCount) 0 ++ ") VALUES (" ++
            qMarksClause colCount 0 ++ ")"
          let vals := (List.range numFields).map
            (fun i => (r.fields.getD i dfltField).2)
          ⟨s1, sql1, vals, .ok⟩

/-- The literal `User` record of the repository's tests:
`User{ID: 1, Name: "Alice", Email: "alice@example.com"}`. -/

def userAlice : Record :=
  ⟨"User", [("ID", .vInt 1), ("Name", .vStr "Alice"),
    ("Email", .vStr "alice@example.com")]⟩

/-- The non-primary-key fields of a record whose value is non-zero, in
declared order, starting the index count at `i`: the fields an `Update`
includes in its SET clause. -/

def updateIncluded (fields : List (String × Value)) (idIndex : Int)
    (i : Nat) : List (String × Value) :=
  match fields with
  | [] => []
  | f :: rest =>
    if (i : Int) = idIndex then updateIncluded rest idIndex (i + 1)
    else if f.2.isZero then updateIncluded rest idIndex (i + 1)
    else f :: updateIncluded rest idIndex (i + 1)

/-- The index of the record's primary-key field: the first field whose
lowercased name satisfies the primary-key naming rule against the
lowercased type name. -/

def pkIndex (r : Record) : Option Nat :=
  firstPK (strToLower r.typeName) (buildInfo r.typ).fields 0

/-- The (column name, value) pairs the `Update` SET loop walks: the
cached lowercased column names paired with the record's field values. -/

def pairsOf (r : Record) : List (fieldInfo × Value) :=
  r.fields.map (fun f => (⟨strToLower f.1⟩, f.2))

/-- Cache well-formedness: every cache entry holds exactly the
descriptor built from its type.  `New` starts empty and `getTypeInfo`
only inserts freshly built descriptors, so every reachable engine state
satisfies this. -/

def WF (s : Structsql) : Prop :=
  ∀ e ∈ s.typeCache, e.2 = buildInfo e.1

/-- Sequential array writes at consecutive indices `k, k+1, ...`. -/

def writeAll (arr : List String) (k : Nat) : List String → List String
  | [] => arr
  | n :: ns => writeAll (arr.set k n) (k + 1) ns

/-- The column names the SET-collection loop keeps: names of pairs that
are neither at the primary-key index nor zero-valued. -/

def keptNames (pairs : List (fieldInfo × Value)) (idIndex : Int) (i : Nat) :
    List String :=
  match pairs with
  | [] => []
  | (f, v) :: rest =>
    if (i : Int) = idIndex then keptNames rest idIndex (i + 1)
    else if v.isZero then keptNames rest idIndex (i + 1)
    else f.Name :: keptNames rest idIndex (i + 1)

/-- Occurrences of one character in a string. -/

def countCh (ch : Char) (s : String) : Nat := s.data.count ch

/-- Greedy decimal reader: consumes the leading digit run of the list,
accumulating its value onto `acc`; returns the value and the rest. -/

def readNum : List Char → Nat → Nat × List Char
  | [], acc => (acc, [])
  | c :: cs, acc =>
    if c.isDigit then readNum cs (acc * 10 + (c.toNat - 48))
    else (acc, c :: cs)

/-- The placeholder positions of a SQL text under the numbered dialect:
the decimal number following each `$`, read left to right. -/

def scanDollars (l : List Char) : List Nat :=
  match l with
  | [] => []
  | c :: cs =>
    if c = '$' then (readNum cs 0).1 :: scanDollars (readNum cs 0).2
    else scanDollars cs
termination_by l.length
decreasing_by
  · simp only [List.length_cons]
    have hb : ∀ (l2 : List Char) (acc : Nat),
        (readNum l2 acc).2.length ≤ l2.length := by
      intro l2
      induction l2 with
      | nil => intro _acc; simp [readNum]
      | cons d ds ihd =>
        intro acc
        simp only [readNum]
        split
        · exact le_trans (ihd _) (by simp)
        · simp
    have := hb cs 0
    omega
  · simp

/-- The first character, if any, is not a digit. -/

def noDigitHead : List Char → Prop
  | [] => True
  | c :: _ => c.isDigit = false

/-- Value of a digit run, folded left onto `acc`. -/

def digitsVal (acc : Nat) (ds : List Char) : Nat :=
  ds.foldl (fun a c => a * 10 + (c.toNat - 48)) acc

/-- A string free of placeholder characters (`$` and `?`). -/

def noPh (s : String) : Bool :=
  s.data.all (fun c => !(c == '$' || c == '?'))

/-- Placeholder hygiene of a record: neither the lowercased type name
nor any lowercased field name contains a placeholder character.  Go
identifiers always satisfy this. -/

def cleanRecord (r : Record) : Bool :=
  noPh (strToLower r.typeName) && r.fields.all (fun f => noPh (strToLower f.1))

/-- The placeholder marker character of a dialect. -/

def phChar (d : String) : Char :=
  if d = PostgreSQL then '$' else '?'

/-- A record whose first field is the key and whose other `m` fields are
all non-zero: the smallest shapes exercising the 32-slot SET buffer. -/

def wideRecord (m : Nat) : Record :=
  ⟨"Wide", ("id", .vInt 1) ::
    (List.range m).map (fun i => ("f" ++ natToStr (i + 1), Value.vInt 1))⟩

/-- A record type with no field satisfying the primary-key naming rule. -/

def noKeyRec : Record := ⟨"Thing", [("name", .vStr "x")]⟩

theorem WF_New (configs : List String) : WF (New configs) := by
  intro e he
  simp [New] at he

theorem getTypeInfo_fst (s : Structsql) (typ : StructType) (h : WF s) :
    (s.getTypeInfo typ).1 = buildInfo typ := by
  cases hf : s.typeCache.find? (fun e => decide (e.1 = typ)) with
  | none =>
    simp only [Structsql.getTypeInfo, hf]
    split <;> simp
  | some e =>
    have hmem : e ∈ s.typeCache := List.mem_of_find?_eq_some hf
    have hpe : e.1 = typ := by
      have h2 := List.find?_some hf
      simpa using h2
    simp only [Structsql.getTypeInfo, hf]
    simp [h e hmem, hpe]

theorem getTypeInfo_dbType (s : Structsql) (typ : StructType) :
    (s.getTypeInfo typ).2.dbType = s.dbType := by
  unfold Structsql.getTypeInfo
  cases hf : s.typeCache.find? (fun e => decide (e.1 = typ)) with
  | none => by_cases hlen : s.typeCache.length < 16 <;> simp [hlen]
  | some e => simp

theorem WF_getTypeInfo (s : Structsql) (typ : StructType) (h : WF s) :
    WF (s.getTypeInfo typ).2 := by
  unfold Structsql.getTypeInfo
  cases hf : s.typeCache.find? (fun e => decide (e.1 = typ)) with
  | none =>
    by_cases hlen : s.typeCache.length < 16
    · simp only [hlen, if_true]
      intro e he
      rcases List.mem_append.1 he with h1 | h2
      · exact h e h1
      · simp at h2
        simp [h2]
    · simpa [hlen] using h
  | some e => simpa using h

theorem writeAll_length : ∀ (ns : List String) (arr : List String) (k : Nat),
    (writeAll arr k ns).length = arr.length := by
  intro ns
  induction ns with
  | nil => intro arr k; rfl
  | cons n ns ih => intro arr k; simp [writeAll, ih]

theorem set_take_succ (arr : List String) (k : Nat) (v : String)
    (h : k < arr.length) : (arr.set k v).take (k + 1) = arr.take k ++ [v] := by
  rw [List.set_eq_take_append_cons_drop, if_pos h]
  have hlen : (arr.take k).length = k := by
    simp [List.length_take]
    omega
  calc (arr.take k ++ v :: arr.drop (k + 1)).take (k + 1)
      = (arr.take k ++ v :: arr.drop (k + 1)).take ((arr.take k).length + 1) := by
        rw [hlen]
    _ = arr.take k ++ (v :: arr.drop (k + 1)).take 1 := List.take_append 1
    _ = arr.take k ++ [v] := by simp

theorem writeAll_take : ∀ (ns : List String) (arr : List String) (k : Nat),
    k + ns.length ≤ arr.length →
    (writeAll arr k ns).take (k + ns.length) = arr.take k ++ ns := by
  intro ns
  induction ns with
  | nil => intro arr k h; simp [writeAll]
  | cons n ns ih =>
    intro arr k h
    simp only [writeAll]
    have harith : k + (n :: ns).length = (k + 1) + ns.length := by
      simp
      omega
    rw [harith]
    have hk : k < arr.length := by
      simp at h
      omega
    have hle : (k + 1) + ns.length ≤ (arr.set k n).length := by
      simp
      simp at h
      omega
    rw [ih (arr.set k n) (k + 1) hle, set_take_succ arr k n hk]
    simp

theorem setLoop_ok : ∀ (pairs : List (fieldInfo × Value)) (idIndex : Int)
    (i : Nat) (arr : List String) (k : Nat),
    k + (keptNames pairs idIndex i).length ≤ arr.length →
    setLoop pairs idIndex i arr k =
      some (writeAll arr k (keptNames pairs idIndex i),
        k + (keptNames pairs idIndex i).length) := by
  intro pairs
  induction pairs with
  | nil => intro idIndex i arr k h; simp [setLoop, keptNames, writeAll]
  | cons p rest ih =>
    intro idIndex i arr k h
    obtain ⟨f, v⟩ := p
    by_cases hid : (i : Int) = idIndex
    · simp only [setLoop, keptNames, hid, if_true] at h ⊢
      exact ih idIndex (i + 1) arr k h
    · by_cases hz : v.isZero
      · simp only [setLoop, keptNames, hid, if_false, hz, if_true] at h ⊢
        exact ih idIndex (i + 1) arr k h
      · simp only [setLoop, keptNames, hid, if_false, hz] at h ⊢
        have hk : k < arr.length := by
          simp at h
          omega
        simp only [arrayWrite, hk, if_true]
        have harith : k + (keptNames rest idIndex (i + 1)).length + 1 =
            (k + 1) + (keptNames rest idIndex (i + 1)).length := by omega
        have hle : (k + 1) + (keptNames rest idIndex (i + 1)).length ≤
            (arr.set k f.Name).length := by
          simp
          simp at h
          omega
        rw [ih idIndex (i + 1) (arr.set k f.Name) (k + 1) hle]
        simp only [writeAll]
        simp
        omega

theorem setLoop_none : ∀ (pairs : List (fieldInfo × Value)) (idIndex : Int)
    (i : Nat) (arr : List String) (k : Nat),
    k ≤ arr.length →
    arr.length < k + (keptNames pairs idIndex i).length →
    setLoop pairs idIndex i arr k = none := by
  intro pairs
  induction pairs with
  | nil => intro idIndex i arr k hk h; simp [keptNames] at h; omega
  | cons p rest ih =>
    intro idIndex i arr k hk h
    obtain ⟨f, v⟩ := p
    by_cases hid : (i : Int) = idIndex
    · simp only [keptNames, hid, if_true] at h
      simp only [setLoop, hid, if_true]
      exact ih idIndex (i + 1) arr k hk h
    · by_cases hz : v.isZero
      · simp only [keptNames, hid, if_false, hz, if_true] at h
        simp only [setLoop, hid, if_false, hz, if_true]
        exact ih idIndex (i + 1) arr k hk h
      · simp only [keptNames, hid, if_false, hz] at h
        simp only [setLoop, hid, if_false, hz]
        rcases Nat.lt_or_ge k arr.length with hlt | hge
        · simp only [arrayWrite, hlt, if_true]
          apply ih idIndex (i + 1) (arr.set k f.Name) (k + 1)
          · simp
            omega
          · simp
            simp at h
            omega
        · have : ¬ k < arr.length := by omega
          simp [arrayWrite, this]

theorem updateValuesLoop_eq : ∀ (fields : List (String × Value))
    (idIndex : Int) (i : Nat),
    updateValuesLoop fields idIndex i =
      (updateIncluded fields idIndex i).map Prod.snd := by
  intro fields
  induction fields with
  | nil => intro idIndex i; rfl
  | cons f rest ih =>
    intro idIndex i
    by_cases hid : (i : Int) = idIndex
    · simp [updateValuesLoop, updateIncluded, hid, ih]
    · by_cases hz : f.2.isZero
      · simp [updateValuesLoop, updateIncluded, hid, hz, ih]
      · simp [updateValuesLoop, updateIncluded, hid, hz, ih]

theorem keptNames_pairsOf : ∀ (fields : List (String × Value))
    (idIndex : Int) (i : Nat),
    keptNames (fields.map (fun f => ((⟨strToLower f.1⟩ : fieldInfo), f.2)))
        idIndex i =
      (updateIncluded fields idIndex i).map (fun f => strToLower f.1) := by
  intro fields
  induction fields with
  | nil => intro idIndex i; rfl
  | cons f rest ih =>
    intro idIndex i
    by_cases hid : (i : Int) = idIndex
    · simp [keptNames, updateIncluded, hid, ih]
    · by_cases hz : f.2.isZero
      · simp [keptNames, updateIncluded, hid, hz, ih]
      · simp [keptNames, updateIncluded, hid, hz, ih]

theorem buildInfo_fields (r : Record) :
    (buildInfo r.typ).fields =
      r.fields.map (fun f => (⟨strToLower f.1⟩ : fieldInfo)) := by
  simp [buildInfo, Record.typ, List.map_map]

theorem zip_buildInfo (r : Record) :
    (buildInfo r.typ).fields.zip (r.fields.map Prod.snd) =
      r.fields.map (fun f => ((⟨strToLower f.1⟩ : fieldInfo), f.2)) := by
  rw [buildInfo_fields, List.zip_map']

theorem findIdField_spec (s : Structsql) (t : String)
    (fields : List fieldInfo) :
    s.findIdField t fields true =
      match firstPK t fields 0 with
      | some k => .ok (k : Int)
      | none => .error "struct must have a primary key field" := by
  unfold Structsql.findIdField
  cases h : firstPK t fields 0 with
  | none => simp
  | some k =>
    have hne : ((k : Int) == -1) = false := by
      simp only [beq_eq_false_iff_ne]
      omega
    simp [hne]

theorem firstPK_lt : ∀ (t : String) (fields : List fieldInfo) (i k : Nat),
    firstPK t fields i = some k → i ≤ k ∧ k < i + fields.length := by
  intro t fields
  induction fields with
  | nil => intro i k h; simp [firstPK] at h
  | cons f rest ih =>
    intro i k h
    simp only [firstPK] at h
    split at h
    · cases h
      simp
    · have := ih (i + 1) k h
      simp
      omega

theorem pkIndex_lt (r : Record) (k : Nat) (h : pkIndex r = some k) :
    k < r.fields.length := by
  have := firstPK_lt _ _ _ _ h
  rw [buildInfo_fields] at this
  simp at this
  omega

theorem range_getD_map : ∀ (l : List (String × Value)),
    (List.range l.length).map (fun i => (l.getD i dfltField).2) =
      l.map Prod.snd := by
  intro l
  induction l with
  | nil => rfl
  | cons x xs ih =>
    simp only [List.length_cons, List.range_succ_eq_map, List.map_cons,
      List.map_map]
    refine congrArg₂ List.cons rfl ?_
    rw [← ih]
    apply List.map_congr_left
    intro i _
    simp [List.getD]

theorem Update_ok (s : Structsql) (r : Record) (sql0 : String)
    (v0 : List Value) (k : Nat) (hwf : WF s) (hr : r.typeName ≠ "struct")
    (hpk : pkIndex r = some k)
    (hKpos : updateIncluded r.fields (k : Int) 0 ≠ [])
    (hKle : (updateIncluded r.fields (k : Int) 0).length ≤ 32) :
    s.Update (.struct r) sql0 v0 =
      ⟨(s.getTypeInfo r.typ).2,
        "UPDATE " ++ strToLower r.typeName ++ " SET " ++
          setClause s.dbType
            ((updateIncluded r.fields (k : Int) 0).map
              (fun f => strToLower f.1)) 0 ++
          " WHERE id=" ++
          phStr s.dbType ((updateIncluded r.fields (k : Int) 0).length + 1),
        (updateIncluded r.fields (k : Int) 0).map Prod.snd ++
          [(r.fields.getD k dfltField).2],
        .ok⟩ := by
  have hk := pkIndex_lt r k hpk
  have hfst := getTypeInfo_fst s r.typ hwf
  have hlen : (s.getTypeInfo r.typ).1.fields.length = r.fields.length := by
    rw [hfst, buildInfo_fields]
    simp
  have hne0 : ¬ (s.getTypeInfo r.typ).1.fields.length = 0 := by omega
  have htn : s.getTableName r.typ = strToLower r.typeName := rfl
  have hfi : (s.getTypeInfo r.typ).2.findIdField (s.getTableName r.typ)
      (s.getTypeInfo r.typ).1.fields true = .ok (k : Int) := by
    rw [findIdField_spec, hfst, htn]
    have : firstPK (strToLower r.typeName) (buildInfo r.typ).fields 0 = some k :=
      hpk
    rw [this]
  have hzip : (s.getTypeInfo r.typ).1.fields.zip (r.fields.map Prod.snd) =
      r.fields.map (fun f => ((⟨strToLower f.1⟩ : fieldInfo), f.2)) := by
    rw [hfst, zip_buildInfo]
  have hkept : keptNames (r.fields.map
      (fun f => ((⟨strToLower f.1⟩ : fieldInfo), f.2))) (k : Int) 0 =
      (updateIncluded r.fields (k : Int) 0).map (fun f => strToLower f.1) :=
    keptNames_pairsOf r.fields (k : Int) 0
  have hKlen : (keptNames (r.fields.map
      (fun f => ((⟨strToLower f.1⟩ : fieldInfo), f.2))) (k : Int) 0).length =
      (updateIncluded r.fields (k : Int) 0).length := by
    rw [hkept]
    simp
  have hsl : setLoop (r.fields.map
      (fun f => ((⟨strToLower f.1⟩ : fieldInfo), f.2))) (k : Int) 0
      (List.replicate 32 "") 0 =
      some (writeAll (List.replicate 32 "") 0 (keptNames (r.fields.map
          (fun f => ((⟨strToLower f.1⟩ : fieldInfo), f.2))) (k : Int) 0),
        0 + (keptNames (r.fields.map
          (fun f => ((⟨strToLower f.1⟩ : fieldInfo), f.2))) (k : Int) 0).length) := by
    apply setLoop_ok
    simp [hKlen]
    omega
  have hcount0 : ¬ (0 + (keptNames (r.fields.map
      (fun f => ((⟨strToLower f.1⟩ : fieldInfo), f.2))) (k : Int) 0).length = 0) := by
    rw [hKlen]
    simp
    exact hKpos
  have htake : (writeAll (List.replicate 32 "") 0 (keptNames (r.fields.map
      (fun f => ((⟨strToLower f.1⟩ : fieldInfo), f.2))) (k : Int) 0)).take
      (0 + (keptNames (r.fields.map
        (fun f => ((⟨strToLower f.1⟩ : fieldInfo), f.2))) (k : Int) 0).length) =
      (updateIncluded r.fields (k : Int) 0).map (fun f => strToLower f.1) := by
    rw [writeAll_take]
    · simp [hkept]
    · simp [hKlen]
      omega
  rw [htn] at hfi
  simp only [Structsql.Update, Structsql.validateStruct, hr, if_false, htn,
    hne0, hfi, hzip, hsl]
  rw [if_neg hcount0]
  simp only [Nat.zero_add] at htake
  simp only [Nat.zero_add, htake, updateValuesLoop_eq, Int.toNat_natCast]
  simp only [hKlen]

theorem Update_noFields (s : Structsql) (r : Record) (sql0 : String)
    (v0 : List Value) (k : Nat) (hwf : WF s) (hr : r.typeName ≠ "struct")
    (hpk : pkIndex r = some k)
    (hK0 : updateIncluded r.fields (k : Int) 0 = []) :
    s.Update (.struct r) sql0 v0 =
      ⟨(s.getTypeInfo r.typ).2, sql0, v0, .err "no fields to update"⟩ := by
  have hk := pkIndex_lt r k hpk
  have hfst := getTypeInfo_fst s r.typ hwf
  have hlen : (s.getTypeInfo r.typ).1.fields.length = r.fields.length := by
    rw [hfst, buildInfo_fields]
    simp
  have hne0 : ¬ (s.getTypeInfo r.typ).1.fields.length = 0 := by omega
  have htn : s.getTableName r.typ = strToLower r.typeName := rfl
  have hfi : (s.getTypeInfo r.typ).2.findIdField (strToLower r.typeName)
      (s.getTypeInfo r.typ).1.fields true = .ok (k : Int) := by
    rw [findIdField_spec, hfst]
    have : firstPK (strToLower r.typeName) (buildInfo r.typ).fields 0 = some k :=
      hpk
    rw [this]
  have hzip : (s.getTypeInfo r.typ).1.fields.zip (r.fields.map Prod.snd) =
      r.fields.map (fun f => ((⟨strToLower f.1⟩ : fieldInfo), f.2)) := by
    rw [hfst, zip_buildInfo]
  have hkept := keptNames_pairsOf r.fields (k : Int) 0
  rw [hK0] at hkept
  simp only [List.map_nil] at hkept
  have hsl : setLoop (r.fields.map
      (fun f => ((⟨strToLower f.1⟩ : fieldInfo), f.2))) (k : Int) 0
      (List.replicate 32 "") 0 = some (List.replicate 32 "", 0) := by
    have h2 := setLoop_ok (r.fields.map
      (fun f => ((⟨strToLower f.1⟩ : fieldInfo), f.2))) (k : Int) 0
      (List.replicate 32 "") 0 (by rw [hkept]; simp)
    rw [hkept] at h2
    simpa [writeAll] using h2
  simp only [Structsql.Update, Structsql.validateStruct, hr, if_false, htn,
    hne0, hfi, hzip, hsl]
  simp

theorem Update_crash (s : Structsql) (r : Record) (sql0 : String)
    (v0 : List Value) (k : Nat) (hwf : WF s) (hr : r.typeName ≠ "struct")
    (hpk : pkIndex r = some k)
    (h32 : 32 < (updateIncluded r.fields (k : Int) 0).length) :
    s.Update (.struct r) sql0 v0 =
      ⟨(s.getTypeInfo r.typ).2, sql0, v0, .crash⟩ := by
  have hk := pkIndex_lt r k hpk
  have hfst := getTypeInfo_fst s r.typ hwf
  have hlen : (s.getTypeInfo r.typ).1.fields.length = r.fields.length := by
    rw [hfst, buildInfo_fields]
    simp
  have hne0 : ¬ (s.getTypeInfo r.typ).1.fields.length = 0 := by omega
  have htn : s.getTableName r.typ = strToLower r.typeName := rfl
  have hfi : (s.getTypeInfo r.typ).2.findIdField (strToLower r.typeName)
      (s.getTypeInfo r.typ).1.fields true = .ok (k : Int) := by
    rw [findIdField_spec, hfst]
    have : firstPK (strToLower r.typeName) (buildInfo r.typ).fields 0 = some k :=
      hpk
    rw [this]
  have hzip : (s.getTypeInfo r.typ).1.fields.zip (r.fields.map Prod.snd) =
      r.fields.map (fun f => ((⟨strToLower f.1⟩ : fieldInfo), f.2)) := by
    rw [hfst, zip_buildInfo]
  have hkept := keptNames_pairsOf r.fields (k : Int) 0
  have hsl : setLoop (r.fields.map
      (fun f => ((⟨strToLower f.1⟩ : fieldInfo), f.2))) (k : Int) 0
      (List.replicate 32 "") 0 = none := by
    apply setLoop_none
    · simp
    · rw [hkept]
      simp
      omega
  simp only [Structsql.Update, Structsql.validateStruct, hr, if_false, htn,
    hne0, hfi, hzip, hsl]

theorem Delete_ok (s : Structsql) (r : Record) (sql0 : String)
    (v0 : List Value) (k : Nat) (hwf : WF s) (hr : r.typeName ≠ "struct")
    (hpk : pkIndex r = some k) :
    s.Delete (.struct r) sql0 v0 =
      ⟨(s.getTypeInfo r.typ).2,
        "DELETE FROM " ++ strToLower r.typeName ++ " WHERE id=" ++
          phStr s.dbType 1,
        [(r.fields.getD k dfltField).2], .ok⟩ := by
  have hfst := getTypeInfo_fst s r.typ hwf
  have htn : s.getTableName r.typ = strToLower r.typeName := rfl
  have hfi : (s.getTypeInfo r.typ).2.findIdField (strToLower r.typeName)
      (s.getTypeInfo r.typ).1.fields true = .ok (k : Int) := by
    rw [findIdField_spec, hfst]
    have : firstPK (strToLower r.typeName) (buildInfo r.typ).fields 0 = some k :=
      hpk
    rw [this]
  simp only [Structsql.Delete, Structsql.validateStruct, hr, if_false, htn,
    hfi]
  simp [Int.toNat_natCast]

theorem Delete_nopk (s : Structsql) (r : Record) (sql0 : String)
    (v0 : List Value) (hwf : WF s) (hr : r.typeName ≠ "struct")
    (hpk : pkIndex r = none) :
    s.Delete (.struct r) sql0 v0 =
      ⟨(s.getTypeInfo r.typ).2, sql0, v0,
        .err "struct must have a primary key field"⟩ := by
  have hfst := getTypeInfo_fst s r.typ hwf
  have htn : s.getTableName r.typ = strToLower r.typeName := rfl
  have hfi : (s.getTypeInfo r.typ).2.findIdField (strToLower r.typeName)
      (s.getTypeInfo r.typ).1.fields true =
      .error "struct must have a primary key field" := by
    rw [findIdField_spec, hfst]
    have : firstPK (strToLower r.typeName) (buildInfo r.typ).fields 0 = none :=
      hpk
    rw [this]
  simp only [Structsql.Delete, Structsql.validateStruct, hr, if_false, htn,
    hfi]

theorem Insert_ok (s : Structsql) (r : Record) (sql0 : String)
    (v0 : List Value) (hwf : WF s) (hr : r.typeName ≠ "struct")
    (hnf : r.fields ≠ []) :
    s.Insert (.struct r) sql0 v0 =
      ⟨(s.getTypeInfo r.typ).2,
        "INSERT INTO " ++ strToLower r.typeName ++ " (" ++
          colsClause (r.fields.map (fun f => strToLower f.1)) 0 ++
          ") VALUES (" ++ phClause s.dbType r.fields.length 0 ++ ")",
        r.fields.map Prod.snd, .ok⟩ := by
  have hfst := getTypeInfo_fst s r.typ hwf
  have hlen : (s.getTypeInfo r.typ).1.fields.length = r.fields.length := by
    rw [hfst, buildInfo_fields]
    simp
  have hne0 : ¬ (s.getTypeInfo r.typ).1.fields.length = 0 := by
    rw [hlen]
    simp
    exact hnf
  have htn : s.getTableName r.typ = strToLower r.typeName := rfl
  have hcols : (s.getTypeInfo r.typ).1.fields.map fieldInfo.Name =
      r.fields.map (fun f => strToLower f.1) := by
    rw [hfst, buildInfo_fields, List.map_map]
    rfl
  simp only [Structsql.Insert, Structsql.validateStruct, hr, if_false, htn,
    hne0, hcols, hlen, range_getD_map]
  rw [if_neg (fun hh => hnf (List.length_eq_zero.mp hh))]

theorem Update_slots (s : Structsql) (x : GoVal) (sql0 : String)
    (v0 : List Value) (h : (s.Update x sql0 v0).outcome ≠ .ok) :
    (s.Update x sql0 v0).sql = sql0 ∧ (s.Update x sql0 v0).values = v0 := by
  cases x with
  | goNil => simp [Structsql.Update, Structsql.validateStruct]
  | nonStruct => simp [Structsql.Update, Structsql.validateStruct]
  | struct r =>
    by_cases hr : r.typeName = "struct"
    · simp [Structsql.Update, Structsql.validateStruct, hr]
    · simp only [Structsql.Update, Structsql.validateStruct, hr, if_false] at h ⊢
      by_cases h0 : (s.getTypeInfo r.typ).1.fields.length = 0
      · simp [h0]
      · simp only [h0, if_false] at h ⊢
        cases hfi : (s.getTypeInfo r.typ).2.findIdField (s.getTableName r.typ)
            (s.getTypeInfo r.typ).1.fields true with
        | error e => simp [hfi]
        | ok idx =>
          simp only [hfi] at h ⊢
          cases hsl : setLoop ((s.getTypeInfo r.typ).1.fields.zip
              (r.fields.map Prod.snd)) idx 0 (List.replicate 32 "") 0 with
          | none => simp [hsl]
          | some p =>
            obtain ⟨cols, cnt⟩ := p
            simp only [hsl] at h ⊢
            by_cases hc : cnt = 0
            · simp [hc]
            · rw [if_neg hc] at h
              exact absurd rfl h

theorem Delete_slots (s : Structsql) (x : GoVal) (sql0 : String)
    (v0 : List Value) (h : (s.Delete x sql0 v0).outcome ≠ .ok) :
    (s.Delete x sql0 v0).sql = sql0 ∧ (s.Delete x sql0 v0).values = v0 := by
  cases x with
  | goNil => simp [Structsql.Delete, Structsql.validateStruct]
  | nonStruct => simp [Structsql.Delete, Structsql.validateStruct]
  | struct r =>
    by_cases hr : r.typeName = "struct"
    · simp [Structsql.Delete, Structsql.validateStruct, hr]
    · simp only [Structsql.Delete, Structsql.validateStruct, hr, if_false] at h ⊢
      cases hfi : (s.getTypeInfo r.typ).2.findIdField (s.getTableName r.typ)
          (s.getTypeInfo r.typ).1.fields true with
      | error e => simp [hfi]
      | ok idx =>
        simp only [hfi] at h
        exact absurd rfl h

theorem Insert_slots (s : Structsql) (x : GoVal) (sql0 : String)
    (v0 : List Value) (h : (s.Insert x sql0 v0).outcome ≠ .ok) :
    (s.Insert x sql0 v0).sql = sql0 ∧ (s.Insert x sql0 v0).values = v0 := by
  cases x with
  | goNil => simp [Structsql.Insert, Structsql.validateStruct]
  | nonStruct => simp [Structsql.Insert, Structsql.validateStruct]
  | struct r =>
    by_cases hr : r.typeName = "struct"
    · simp [Structsql.Insert, Structsql.validateStruct, hr]
    · simp only [Structsql.Insert, Structsql.validateStruct, hr, if_false] at h ⊢
      by_cases h0 : (s.getTypeInfo r.typ).1.fields.length = 0
      · simp [h0]
      · simp only [h0, if_false] at h
        exact absurd rfl h

theorem countCh_append (ch : Char) (a b : String) :
    countCh ch (a ++ b) = countCh ch a + countCh ch b := by
  simp [countCh]

theorem digitChar_toNat (d : Nat) (h : d < 10) :
    (digitChar d).toNat = 48 + d := by
  interval_cases d <;> decide

theorem digitChar_isDigit (d : Nat) (h : d < 10) :
    (digitChar d).isDigit = true := by
  interval_cases d <;> decide

theorem natToStrAux_digits : ∀ (fuel n : Nat), n < fuel →
    ∀ c ∈ natToStrAux fuel n, c.isDigit = true := by
  intro fuel
  induction fuel with
  | zero => intro n h; omega
  | succ fuel ih =>
    intro n h c hc
    simp only [natToStrAux] at hc
    by_cases h10 : n < 10
    · simp [h10] at hc
      subst hc
      exact digitChar_isDigit n h10
    · simp only [h10, if_false] at hc
      rcases List.mem_append.1 hc with h1 | h2
      · refine ih (n / 10) ?_ c h1
        have h0 : 0 < n := by omega
        have := Nat.div_lt_self h0 (by omega : 1 < 10)
        omega
      · simp at h2
        subst h2
        exact digitChar_isDigit _ (Nat.mod_lt n (by omega))

theorem natToStr_digits (n : Nat) : ∀ c ∈ (natToStr n).data,
    c.isDigit = true := by
  intro c hc
  exact natToStrAux_digits (n + 1) n (by omega) c hc

theorem countCh_natToStr (ch : Char) (n : Nat) (h : ch.isDigit = false) :
    countCh ch (natToStr n) = 0 := by
  simp only [countCh]
  rw [List.count_eq_zero]
  intro hmem
  have := natToStr_digits n ch hmem
  rw [this] at h
  cases h

theorem phStr_postgres (n : Nat) : phStr PostgreSQL n = "$" ++ natToStr n := by
  simp [phStr, placeholderPostgre]

theorem phStr_sqlite (n : Nat) : phStr SQLite n = "?" := by
  rw [phStr, if_neg (by decide), if_pos rfl]
  rfl

theorem countCh_phStr_postgres (n : Nat) :
    countCh '$' (phStr PostgreSQL n) = 1 := by
  rw [phStr_postgres, countCh_append, countCh_natToStr '$' n (by decide)]
  decide

theorem countCh_phStr_sqlite (n : Nat) :
    countCh '?' (phStr SQLite n) = 1 := by
  rw [phStr_sqlite]
  decide

theorem countCh_setClause (d : String) (ch : Char)
    (hph : ∀ m, countCh ch (phStr d m) = 1)
    (hsep : countCh ch ", " = 0) (heq : countCh ch "=" = 0) :
    ∀ (cols : List String) (i : Nat), (∀ c ∈ cols, countCh ch c = 0) →
    countCh ch (setClause d cols i) = cols.length := by
  intro cols
  induction cols with
  | nil => intro i h; simp [setClause, countCh]
  | cons c cs ih =>
    intro i h
    simp only [setClause]
    rw [countCh_append, countCh_append, countCh_append, countCh_append]
    have hsep2 : countCh ch (if 0 < i then ", " else "") = 0 := by
      split
      · exact hsep
      · rfl
    rw [hsep2, h c (by simp), heq, hph, ih (i + 1) (fun x hx => h x (by simp [hx]))]
    simp only [List.length_cons]
    omega

theorem countCh_phClauseAux (d : String) (ch : Char)
    (hph : ∀ m, countCh ch (phStr d m) = 1)
    (hsep : countCh ch ", " = 0) :
    ∀ (rem i : Nat), countCh ch (phClauseAux d i rem) = rem := by
  intro rem
  induction rem with
  | zero => intro i; rfl
  | succ rem ih =>
    intro i
    simp only [phClauseAux]
    rw [countCh_append, countCh_append]
    have hsep2 : countCh ch (if 0 < i then ", " else "") = 0 := by
      split
      · exact hsep
      · rfl
    rw [hsep2, hph, ih (i + 1)]
    omega

theorem countCh_colsClause (ch : Char) (hsep : countCh ch ", " = 0) :
    ∀ (cols : List String) (i : Nat), (∀ c ∈ cols, countCh ch c = 0) →
    countCh ch (colsClause cols i) = 0 := by
  intro cols
  induction cols with
  | nil => intro i h; rfl
  | cons c cs ih =>
    intro i h
    simp only [colsClause]
    rw [countCh_append, countCh_append]
    have hsep2 : countCh ch (if 0 < i then ", " else "") = 0 := by
      split
      · exact hsep
      · rfl
    rw [hsep2, h c (by simp), ih (i + 1) (fun x hx => h x (by simp [hx]))]

theorem readNum_length : ∀ (cs : List Char) (acc : Nat),
    (readNum cs acc).2.length ≤ cs.length := by
  intro cs
  induction cs with
  | nil => intro acc; simp [readNum]
  | cons c cs ih =>
    intro acc
    simp only [readNum]
    split
    · exact le_trans (ih _) (by simp)
    · simp

theorem readNum_noDigit (cs : List Char) (acc : Nat) (h : noDigitHead cs) :
    readNum cs acc = (acc, cs) := by
  cases cs with
  | nil => rfl
  | cons c cs =>
    simp only [noDigitHead] at h
    simp [readNum, h]

theorem readNum_digits : ∀ (ds rest : List Char) (acc : Nat),
    (∀ c ∈ ds, c.isDigit = true) → noDigitHead rest →
    readNum (ds ++ rest) acc = (digitsVal acc ds, rest) := by
  intro ds
  induction ds with
  | nil =>
    intro rest acc h hr
    simpa [digitsVal] using readNum_noDigit rest acc hr
  | cons c cs ih =>
    intro rest acc h hr
    have hc : c.isDigit = true := h c (by simp)
    simp only [List.cons_append, readNum, hc, if_true]
    show readNum (cs ++ rest) (acc * 10 + (c.toNat - 48)) =
      (digitsVal acc (c :: cs), rest)
    rw [ih rest _ (fun x hx => h x (by simp [hx])) hr]
    rfl

theorem digitsVal_append_last (acc : Nat) (ds : List Char) (c : Char) :
    digitsVal acc (ds ++ [c]) = (digitsVal acc ds) * 10 + (c.toNat - 48) := by
  simp [digitsVal]

theorem digitsVal_natToStrAux : ∀ (fuel n acc : Nat), n < fuel →
    digitsVal acc (natToStrAux fuel n) =
      acc * 10 ^ (natToStrAux fuel n).length + n := by
  intro fuel
  induction fuel with
  | zero => intro n acc h; omega
  | succ fuel ih =>
    intro n acc h
    by_cases h10 : n < 10
    · simp [natToStrAux, h10, digitsVal, digitChar_toNat n h10]
    · simp only [natToStrAux, h10, if_false]
      have hlt : n / 10 < fuel := by
        have h0 : 0 < n := by omega
        have := Nat.div_lt_self h0 (by omega : 1 < 10)
        omega
      rw [digitsVal_append_last, ih (n / 10) acc hlt,
        digitChar_toNat (n % 10) (Nat.mod_lt n (by omega))]
      simp only [List.length_append, List.length_singleton]
      have hpow : 10 ^ ((natToStrAux fuel (n / 10)).length + 1) =
          10 ^ (natToStrAux fuel (n / 10)).length * 10 := by
        rw [pow_succ]
      rw [hpow]
      have hmod : 48 + n % 10 - 48 = n % 10 := by omega
      rw [hmod]
      have hdm : n / 10 * 10 + n % 10 = n := by omega
      generalize 10 ^ (natToStrAux fuel (n / 10)).length = P
      ring_nf
      omega

theorem readNum_natToStr (n : Nat) (rest : List Char) (h : noDigitHead rest) :
    readNum ((natToStr n).data ++ rest) 0 = (n, rest) := by
  rw [readNum_digits _ _ _ (natToStr_digits n) h]
  have := digitsVal_natToStrAux (n + 1) n 0 (by omega)
  simp only [natToStr]
  simp only [natToStr] at this
  rw [this]
  simp

theorem scanDollars_nil : scanDollars [] = [] := by
  rw [scanDollars]

theorem scanDollars_clean : ∀ (l t : List Char), (∀ c ∈ l, c ≠ '$') →
    scanDollars (l ++ t) = scanDollars t := by
  intro l
  induction l with
  | nil => intro t h; rfl
  | cons c cs ih =>
    intro t h
    have hc : ¬ (c = '$') := h c (by simp)
    rw [List.cons_append, scanDollars]
    simp only [hc, if_false]
    exact ih t (fun x hx => h x (by simp [hx]))

theorem scanDollars_dollar (n : Nat) (rest : List Char) (h : noDigitHead rest) :
    scanDollars ('$' :: ((natToStr n).data ++ rest)) = n :: scanDollars rest := by
  rw [scanDollars]
  rw [readNum_natToStr n rest h]
  simp

theorem countCh_zero_ne (ch : Char) (s : String) (h : countCh ch s = 0) :
    ∀ c ∈ s.data, c ≠ ch := by
  intro c hc he
  subst he
  simp only [countCh] at h
  rw [List.count_eq_zero] at h
  exact h hc

theorem noDigitHead_setClause (d : String) (cols : List String) (i : Nat)
    (rest : List Char) (h : noDigitHead rest) :
    noDigitHead ((setClause d cols (i + 1)).data ++ rest) := by
  cases cols with
  | nil => simpa [setClause] using h
  | cons c cs =>
    simp only [setClause, if_pos (Nat.succ_pos i), String.data_append,
      List.append_assoc]
    simp [noDigitHead]

theorem noDigitHead_phClauseAux (d : String) (rem i : Nat)
    (rest : List Char) (h : noDigitHead rest) :
    noDigitHead ((phClauseAux d (i + 1) rem).data ++ rest) := by
  cases rem with
  | zero => simpa [phClauseAux] using h
  | succ rem =>
    simp only [phClauseAux, if_pos (Nat.succ_pos i), String.data_append,
      List.append_assoc]
    simp [noDigitHead]

theorem scanDollars_setClause : ∀ (cols : List String) (i : Nat)
    (rest : List Char), (∀ c ∈ cols, countCh '$' c = 0) → noDigitHead rest →
    scanDollars ((setClause PostgreSQL cols i).data ++ rest) =
      List.range' (i + 1) cols.length ++ scanDollars rest := by
  intro cols
  induction cols with
  | nil =>
    intro i rest h hr
    simp [setClause]
  | cons c cs ih =>
    intro i rest h hr
    simp only [setClause, phStr_postgres, String.data_append,
      List.append_assoc]
    have hsep : ∀ ch ∈ (if 0 < i then (", " : String) else "").data,
        ch ≠ '$' := by
      split
      · exact countCh_zero_ne '$' ", " (by decide)
      · intro ch hch
        simp at hch
    have hcol : ∀ ch ∈ c.data, ch ≠ '$' :=
      countCh_zero_ne '$' c (h c (by simp))
    have heqs : ∀ ch ∈ ("=" : String).data, ch ≠ '$' :=
      countCh_zero_ne '$' "=" (by decide)
    rw [scanDollars_clean _ _ hsep, scanDollars_clean _ _ hcol,
      scanDollars_clean _ _ heqs]
    have hnd : noDigitHead ((setClause PostgreSQL cs (i + 1)).data ++ rest) :=
      noDigitHead_setClause PostgreSQL cs i rest hr
    have hstep : scanDollars ('$' :: ((natToStr (i + 1)).data ++
        ((setClause PostgreSQL cs (i + 1)).data ++ rest))) =
        (i + 1) :: scanDollars ((setClause PostgreSQL cs (i + 1)).data ++ rest) :=
      scanDollars_dollar (i + 1) _ hnd
    simp only [List.cons_append, List.nil_append] at hstep ⊢
    rw [hstep, ih (i + 1) rest (fun x hx => h x (by simp [hx])) hr]
    simp [List.range']

theorem scanDollars_phClauseAux : ∀ (rem i : Nat) (rest : List Char),
    noDigitHead rest →
    scanDollars ((phClauseAux PostgreSQL i rem).data ++ rest) =
      List.range' (i + 1) rem ++ scanDollars rest := by
  intro rem
  induction rem with
  | zero =>
    intro i rest hr
    simp [phClauseAux]
  | succ rem ih =>
    intro i rest hr
    simp only [phClauseAux, phStr_postgres, String.data_append,
      List.append_assoc]
    have hsep : ∀ ch ∈ (if 0 < i then (", " : String) else "").data,
        ch ≠ '$' := by
      split
      · exact countCh_zero_ne '$' ", " (by decide)
      · intro ch hch
        simp at hch
    rw [scanDollars_clean _ _ hsep]
    have hnd : noDigitHead ((phClauseAux PostgreSQL (i + 1) rem).data ++ rest) :=
      noDigitHead_phClauseAux PostgreSQL rem i rest hr
    have hstep : scanDollars ('$' :: ((natToStr (i + 1)).data ++
        ((phClauseAux PostgreSQL (i + 1) rem).data ++ rest))) =
        (i + 1) :: scanDollars ((phClauseAux PostgreSQL (i + 1) rem).data ++ rest) :=
      scanDollars_dollar (i + 1) _ hnd
    simp only [List.cons_append, List.nil_append] at hstep ⊢
    rw [hstep, ih (i + 1) rest hr]
    simp [List.range']

theorem Update_ok_inv (s : Structsql) (x : GoVal) (sql0 : String)
    (v0 : List Value) (hwf : WF s)
    (h : (s.Update x sql0 v0).outcome = .ok) :
    ∃ r k, x = .struct r ∧ r.typeName ≠ "struct" ∧ pkIndex r = some k ∧
      updateIncluded r.fields (k : Int) 0 ≠ [] ∧
      (updateIncluded r.fields (k : Int) 0).length ≤ 32 := by
  cases x with
  | goNil => simp [Structsql.Update, Structsql.validateStruct] at h
  | nonStruct => simp [Structsql.Update, Structsql.validateStruct] at h
  | struct r =>
    by_cases hr : r.typeName = "struct"
    · simp [Structsql.Update, Structsql.validateStruct, hr] at h
    · refine ⟨r, ?_⟩
      have hfst := getTypeInfo_fst s r.typ hwf
      have htn : s.getTableName r.typ = strToLower r.typeName := rfl
      have hzip : (s.getTypeInfo r.typ).1.fields.zip (r.fields.map Prod.snd) =
          r.fields.map (fun f => ((⟨strToLower f.1⟩ : fieldInfo), f.2)) := by
        rw [hfst, zip_buildInfo]
      simp only [Structsql.Update, Structsql.validateStruct, hr, if_false,
        htn, hzip] at h
      by_cases h0 : (s.getTypeInfo r.typ).1.fields.length = 0
      · simp [h0] at h
      · simp only [h0, if_false] at h
        have hfispec : (s.getTypeInfo r.typ).2.findIdField
            (strToLower r.typeName) (s.getTypeInfo r.typ).1.fields true =
            match pkIndex r with
            | some k => Except.ok (k : Int)
            | none => Except.error "struct must have a primary key field" := by
          rw [hfst]
          exact findIdField_spec _ _ _
        cases hpk : pkIndex r with
        | none =>
          rw [hpk] at hfispec
          rw [hfispec] at h
          simp at h
        | some k =>
          rw [hpk] at hfispec
          rw [hfispec] at h
          dsimp only at h
          refine ⟨k, rfl, hr, rfl, ?_⟩
          have hkept := keptNames_pairsOf r.fields (k : Int) 0
          by_cases h32 : (updateIncluded r.fields (k : Int) 0).length ≤ 32
          · constructor
            · have hsl := setLoop_ok (r.fields.map
                (fun f => ((⟨strToLower f.1⟩ : fieldInfo), f.2))) (k : Int) 0
                (List.replicate 32 "") 0 (by rw [hkept]; simp; omega)
              rw [hsl] at h
              intro hnil
              rw [hkept] at h
              rw [hnil] at h
              simp at h
            · exact h32
          · exfalso
            have hsl := setLoop_none (r.fields.map
                (fun f => ((⟨strToLower f.1⟩ : fieldInfo), f.2))) (k : Int) 0
                (List.replicate 32 "") 0 (by simp)
                (by rw [hkept]; simp; omega)
            rw [hsl] at h
            simp at h

theorem Delete_ok_inv (s : Structsql) (x : GoVal) (sql0 : String)
    (v0 : List Value) (hwf : WF s)
    (h : (s.Delete x sql0 v0).outcome = .ok) :
    ∃ r k, x = .struct r ∧ r.typeName ≠ "struct" ∧ pkIndex r = some k := by
  cases x with
  | goNil => simp [Structsql.Delete, Structsql.validateStruct] at h
  | nonStruct => simp [Structsql.Delete, Structsql.validateStruct] at h
  | struct r =>
    by_cases hr : r.typeName = "struct"
    · simp [Structsql.Delete, Structsql.validateStruct, hr] at h
    · refine ⟨r, ?_⟩
      have hfst := getTypeInfo_fst s r.typ hwf
      have htn : s.getTableName r.typ = strToLower r.typeName := rfl
      simp only [Structsql.Delete, Structsql.validateStruct, hr, if_false,
        htn] at h
      have hfispec : (s.getTypeInfo r.typ).2.findIdField
          (strToLower r.typeName) (s.getTypeInfo r.typ).1.fields true =
          match pkIndex r with
          | some k => Except.ok (k : Int)
          | none => Except.error "struct must have a primary key field" := by
        rw [hfst]
        exact findIdField_spec _ _ _
      cases hpk : pkIndex r with
      | none =>
        rw [hpk] at hfispec
        rw [hfispec] at h
        simp at h
      | some k => exact ⟨k, rfl, hr, rfl⟩

theorem Insert_ok_inv (s : Structsql) (x : GoVal) (sql0 : String)
    (v0 : List Value) (hwf : WF s)
    (h : (s.Insert x sql0 v0).outcome = .ok) :
    ∃ r, x = .struct r ∧ r.typeName ≠ "struct" ∧ r.fields ≠ [] := by
  cases x with
  | goNil => simp [Structsql.Insert, Structsql.validateStruct] at h
  | nonStruct => simp [Structsql.Insert, Structsql.validateStruct] at h
  | struct r =>
    by_cases hr : r.typeName = "struct"
    · simp [Structsql.Insert, Structsql.validateStruct, hr] at h
    · refine ⟨r, rfl, hr, ?_⟩
      have hfst := getTypeInfo_fst s r.typ hwf
      have hlen : (s.getTypeInfo r.typ).1.fields.length = r.fields.length := by
        rw [hfst, buildInfo_fields]
        simp
      simp only [Structsql.Insert, Structsql.validateStruct, hr, if_false] at h
      by_cases h0 : (s.getTypeInfo r.typ).1.fields.length = 0
      · simp [h0] at h
      · intro hnil
        rw [hnil] at hlen
        simp at hlen
        simp [hlen] at h0

theorem noDigitHead_cons (c : Char) (l : List Char) (h : c.isDigit = false) :
    noDigitHead (c :: l) := h

theorem scanDollars_singleton (c : Char) (h : ¬ (c = '$')) :
    scanDollars [c] = [] := by
  rw [scanDollars]
  simp only [h, if_false]
  rw [scanDollars]

theorem countCh_updateSql (d : String) (ch : Char) (table : String)
    (cols : List String) (hph : ∀ m, countCh ch (phStr d m) = 1)
    (h1 : countCh ch "UPDATE " = 0) (h2 : countCh ch " SET " = 0)
    (h3 : countCh ch " WHERE id=" = 0) (h4 : countCh ch ", " = 0)
    (h5 : countCh ch "=" = 0)
    (htable : countCh ch table = 0) (hcols : ∀ c ∈ cols, countCh ch c = 0) :
    countCh ch ("UPDATE " ++ table ++ " SET " ++ setClause d cols 0 ++
      " WHERE id=" ++ phStr d (cols.length + 1)) = cols.length + 1 := by
  rw [countCh_append, countCh_append, countCh_append, countCh_append,
    countCh_append, h1, h2, h3, htable, hph,
    countCh_setClause d ch hph h4 h5 cols 0 hcols]
  omega

theorem countCh_insertSql (d : String) (ch : Char) (table : String)
    (cols : List String) (n : Nat) (hph : ∀ m, countCh ch (phStr d m) = 1)
    (h1 : countCh ch "INSERT INTO " = 0) (h2 : countCh ch " (" = 0)
    (h3 : countCh ch ") VALUES (" = 0) (h4 : countCh ch ")" = 0)
    (h5 : countCh ch ", " = 0)
    (htable : countCh ch table = 0) (hcols : ∀ c ∈ cols, countCh ch c = 0) :
    countCh ch ("INSERT INTO " ++ table ++ " (" ++ colsClause cols 0 ++
      ") VALUES (" ++ phClause d n 0 ++ ")") = n := by
  have hpc : phClause d n 0 = phClauseAux d 0 n := by
    simp [phClause]
  rw [hpc, countCh_append, countCh_append, countCh_append, countCh_append,
    countCh_append, countCh_append, h1, h2, h3, h4, htable,
    countCh_colsClause ch h5 cols 0 hcols,
    countCh_phClauseAux d ch hph h5 n 0]
  omega

theorem countCh_deleteSql (d : String) (ch : Char) (table : String)
    (hph : ∀ m, countCh ch (phStr d m) = 1)
    (h1 : countCh ch "DELETE FROM " = 0) (h2 : countCh ch " WHERE id=" = 0)
    (htable : countCh ch table = 0) :
    countCh ch ("DELETE FROM " ++ table ++ " WHERE id=" ++ phStr d 1) = 1 := by
  rw [countCh_append, countCh_append, countCh_append, h1, h2, htable, hph]

theorem scanDollars_updateSql (table : String) (cols : List String)
    (htable : countCh '$' table = 0) (hcols : ∀ c ∈ cols, countCh '$' c = 0) :
    scanDollars ("UPDATE " ++ table ++ " SET " ++ setClause PostgreSQL cols 0 ++
      " WHERE id=" ++ phStr PostgreSQL (cols.length + 1)).data =
      List.range' 1 (cols.length + 1) := by
  simp only [String.data_append, List.append_assoc, phStr_postgres]
  rw [scanDollars_clean _ _ (countCh_zero_ne '$' "UPDATE " (by decide))]
  rw [scanDollars_clean _ _ (countCh_zero_ne '$' table htable)]
  rw [scanDollars_clean _ _ (countCh_zero_ne '$' " SET " (by decide))]
  have hrest : noDigitHead ((" WHERE id=" : String).data ++
      (("$" : String).data ++ (natToStr (cols.length + 1)).data)) := by
    exact noDigitHead_cons _ _ (by decide)
  rw [scanDollars_setClause cols 0 _ hcols hrest]
  rw [scanDollars_clean _ _ (countCh_zero_ne '$' " WHERE id=" (by decide))]
  have hdol : scanDollars (("$" : String).data ++
      (natToStr (cols.length + 1)).data) = [cols.length + 1] := by
    have : (("$" : String).data ++ (natToStr (cols.length + 1)).data) =
        '$' :: ((natToStr (cols.length + 1)).data ++ []) := by
      simp
    rw [this, scanDollars_dollar _ _ (by trivial), scanDollars_nil]
  rw [hdol]
  have hc : List.range' 1 (cols.length + 1) =
      List.range' 1 cols.length ++ [1 + cols.length] :=
    List.range'_1_concat 1 cols.length
  rw [hc]
  simp [Nat.add_comm]

theorem scanDollars_insertSql (table : String) (cols : List String) (n : Nat)
    (htable : countCh '$' table = 0) (hcols : ∀ c ∈ cols, countCh '$' c = 0) :
    scanDollars ("INSERT INTO " ++ table ++ " (" ++ colsClause cols 0 ++
      ") VALUES (" ++ phClause PostgreSQL n 0 ++ ")").data =
      List.range' 1 n := by
  have hpc : phClause PostgreSQL n 0 = phClauseAux PostgreSQL 0 n := by
    simp [phClause]
  rw [hpc]
  simp only [String.data_append, List.append_assoc]
  rw [scanDollars_clean _ _ (countCh_zero_ne '$' "INSERT INTO " (by decide))]
  rw [scanDollars_clean _ _ (countCh_zero_ne '$' table htable)]
  rw [scanDollars_clean _ _ (countCh_zero_ne '$' " (" (by decide))]
  rw [scanDollars_clean _ _ (countCh_zero_ne '$' (colsClause cols 0)
    (countCh_colsClause '$' (by decide) cols 0 hcols))]
  rw [scanDollars_clean _ _ (countCh_zero_ne '$' ") VALUES (" (by decide))]
  have hrest : noDigitHead ((")" : String).data) :=
    noDigitHead_cons _ _ (by decide)
  rw [scanDollars_phClauseAux n 0 _ hrest]
  rw [scanDollars_singleton ')' (by decide)]
  simp

theorem scanDollars_deleteSql (table : String)
    (htable : countCh '$' table = 0) :
    scanDollars ("DELETE FROM " ++ table ++ " WHERE id=" ++
      phStr PostgreSQL 1).data = [1] := by
  simp only [String.data_append, List.append_assoc, phStr_postgres]
  rw [scanDollars_clean _ _ (countCh_zero_ne '$' "DELETE FROM " (by decide))]
  rw [scanDollars_clean _ _ (countCh_zero_ne '$' table htable)]
  rw [scanDollars_clean _ _ (countCh_zero_ne '$' " WHERE id=" (by decide))]
  have : (("$" : String).data ++ (natToStr 1).data) =
      '$' :: ((natToStr 1).data ++ []) := by
    simp
  rw [this, scanDollars_dollar _ _ (by trivial), scanDollars_nil]

theorem noPh_countCh (s : String) (h : noPh s = true) :
    countCh '$' s = 0 ∧ countCh '?' s = 0 := by
  simp only [noPh, List.all_eq_true] at h
  constructor <;>
    · simp only [countCh]
      rw [List.count_eq_zero]
      intro hm
      have h2 := h _ hm
      simp at h2

theorem updateIncluded_mem : ∀ (fields : List (String × Value))
    (idIndex : Int) (i : Nat) (f : String × Value),
    f ∈ updateIncluded fields idIndex i → f ∈ fields := by
  intro fields
  induction fields with
  | nil => intro idIndex i f hf; simp [updateIncluded] at hf
  | cons g rest ih =>
    intro idIndex i f hf
    by_cases hid : (i : Int) = idIndex
    · simp only [updateIncluded, hid, if_true] at hf
      exact List.mem_cons_of_mem g (ih idIndex (i + 1) f hf)
    · by_cases hz : g.2.isZero
      · simp only [updateIncluded, hid, if_false, hz, if_true] at hf
        exact List.mem_cons_of_mem g (ih idIndex (i + 1) f hf)
      · simp only [updateIncluded, hid, if_false, hz] at hf
        rcases List.mem_cons.1 hf with h1 | h2
        · rw [h1]; exact List.mem_cons_self g rest
        · exact List.mem_cons_of_mem g (ih idIndex (i + 1) f h2)

theorem cleanRecord_table (r : Record) (h : cleanRecord r = true) :
    countCh '$' (strToLower r.typeName) = 0 ∧
      countCh '?' (strToLower r.typeName) = 0 := by
  simp only [cleanRecord, Bool.and_eq_true] at h
  exact noPh_countCh _ h.1

theorem cleanRecord_field (r : Record) (h : cleanRecord r = true)
    (f : String × Value) (hf : f ∈ r.fields) :
    countCh '$' (strToLower f.1) = 0 ∧ countCh '?' (strToLower f.1) = 0 := by
  simp only [cleanRecord, Bool.and_eq_true, List.all_eq_true] at h
  exact noPh_countCh _ (h.2 f hf)

theorem phChar_postgres : phChar PostgreSQL = '$' := rfl

theorem phChar_sqlite : phChar SQLite = '?' := by
  rw [phChar, if_neg (by decide)]

example : natToStr 1 = "1" := by decide

example : natToStr 33 = "33" := by decide

example : phStr PostgreSQL 3 = "$3" := by decide

example : phStr SQLite 3 = "?" := by decide

example : IDorPrimaryKey "user" "id" = true := by decide

example : IDorPrimaryKey "user" "userid" = true := by decide

example : IDorPrimaryKey "user" "name" = false := by decide

example :
    (New []).Update (.struct userAlice) "" [] =
      ⟨⟨[(userAlice.typ, buildInfo userAlice.typ)], PostgreSQL⟩,
        "UPDATE user SET name=$1, email=$2 WHERE id=$3",
        [.vStr "Alice", .vStr "alice@example.com", .vInt 1], .ok⟩ := by
  decide

example :
    ((New [SQLite]).Update (.struct userAlice) "" []).sql =
      "UPDATE user SET name=?, email=? WHERE id=?" := by
  decide

example :
    (New []).Delete (.struct userAlice) "" [] =
      ⟨⟨[(userAlice.typ, buildInfo userAlice.typ)], PostgreSQL⟩,
        "DELETE FROM user WHERE id=$1", [.vInt 1], .ok⟩ := by
  decide

example :
    ((New []).Insert (.struct userAlice) "" []).sql =
      "INSERT INTO user (id, name, email) VALUES ($1, $2, $3)" := by
  decide

example :
    ((New []).InsertPrev "" [] (.struct userAlice)).sql =
      "INSERT INTO user (id, name, email) VALUES (?, ?, ?)" := by
  decide

example :
    ((New []).Update (.struct ⟨"User", [("ID", .vInt 1)]⟩) "x" []) =
      ⟨⟨[(⟨"User", ["ID"]⟩, ⟨[⟨"id"⟩]⟩)], PostgreSQL⟩, "x", [],
        .err "no fields to update"⟩ := by
  decide

/-- Claim C5: for every named struct record whose type has a primary-key
field, Delete succeeds and renders `DELETE FROM <table> WHERE id=<ph1>`
with exactly one value, the primary-key field's value; when no field
satisfies the primary-key naming rule, Delete fails with the
missing-primary-key error. -/
theorem claim_C5_delete_shape (s : Structsql) (r : Record) (sql0 : String)
    (v0 : List Value) (hwf : WF s) (hr : r.typeName ≠ "struct") :
    (∀ k, pkIndex r = some k →
      s.Delete (.struct r) sql0 v0 =
        ⟨(s.getTypeInfo r.typ).2,
          "DELETE FROM " ++ strToLower r.typeName ++ " WHERE id=" ++
            phStr s.dbType 1,
          [(r.fields.getD k dfltField).2], .ok⟩) ∧
    (pkIndex r = none →
      (s.Delete (.struct r) sql0 v0).outcome =
        .err "struct must have a primary key field") := by
  constructor
  · intro k hk
    exact Delete_ok s r sql0 v0 k hwf hr hk
  · intro hn
    rw [Delete_nopk s r sql0 v0 hwf hr hn]

theorem claim_C5_delete_shape_witness :
    WF (New []) ∧ userAlice.typeName ≠ "struct" ∧
      pkIndex userAlice = some 0 ∧ pkIndex noKeyRec = none ∧
      (New []).Delete (.struct userAlice) "" [] =
        ⟨((New []).getTypeInfo userAlice.typ).2,
          "DELETE FROM " ++ strToLower userAlice.typeName ++ " WHERE id=" ++
            phStr (New []).dbType 1,
          [(userAlice.fields.getD 0 dfltField).2], .ok⟩ ∧
      ((New []).Delete (.struct noKeyRec) "" []).outcome =
        .err "struct must have a primary key field" :=
  ⟨WF_New [], by decide, by decide, by decide,
    (claim_C5_delete_shape (New []) userAlice "" [] (WF_New [])
      (by decide)).1 0 (by decide),
    (claim_C5_delete_shape (New []) noKeyRec "" [] (WF_New [])
      (by decide)).2 (by decide)⟩

/-- Claim C7: every builder call that returns an error leaves the
caller's SQL slot and value-list slot exactly as they were before the
call (the engine writes them only on the success path). -/
theorem claim_C7_error_leaves_slots (s : Structsql) (x : GoVal)
    (sql0 : String) (v0 : List Value) :
    ((s.Insert x sql0 v0).outcome ≠ .ok →
      (s.Insert x sql0 v0).sql = sql0 ∧ (s.Insert x sql0 v0).values = v0) ∧
    ((s.Update x sql0 v0).outcome ≠ .ok →
      (s.Update x sql0 v0).sql = sql0 ∧ (s.Update x sql0 v0).values = v0) ∧
    ((s.Delete x sql0 v0).outcome ≠ .ok →
      (s.Delete x sql0 v0).sql = sql0 ∧ (s.Delete x sql0 v0).values = v0) :=
  ⟨Insert_slots s x sql0 v0, Update_slots s x sql0 v0,
    Delete_slots s x sql0 v0⟩

theorem claim_C7_error_leaves_slots_witness :
    ((New []).Update .goNil "keep" [Value.vInt 7]).outcome ≠ .ok ∧
      ((New []).Update .goNil "keep" [Value.vInt 7]).sql = "keep" ∧
      ((New []).Update .goNil "keep" [Value.vInt 7]).values = [Value.vInt 7] :=
  ⟨by decide,
    ((claim_C7_error_leaves_slots (New []) .goNil "keep"
      [Value.vInt 7]).2.1 (by decide)).1,
    ((claim_C7_error_leaves_slots (New []) .goNil "keep"
      [Value.vInt 7]).2.1 (by decide)).2⟩

theorem pkIndex_congr (r1 r2 : Record) (h : r1.typ = r2.typ) :
    pkIndex r1 = pkIndex r2 := by
  unfold pkIndex
  rw [show r1.typeName = r1.typ.name from rfl,
    show r2.typeName = r2.typ.name from rfl, h]

/-- Claim C10: the SQL text and value list produced by Delete depend
only on the record's type and its primary-key field value: two records
of the same type agreeing on the primary-key field produce identical
outputs, whatever their other field values. -/
theorem claim_C10_delete_depends_only_on_key (s : Structsql)
    (r1 r2 : Record) (sql0 : String) (v0 : List Value) (k : Nat)
    (hwf : WF s) (ht : r1.typ = r2.typ) (hr : r1.typeName ≠ "struct")
    (hpk : pkIndex r1 = some k)
    (hv : (r1.fields.getD k dfltField).2 = (r2.fields.getD k dfltField).2) :
    (s.Delete (.struct r1) sql0 v0).sql =
      (s.Delete (.struct r2) sql0 v0).sql ∧
    (s.Delete (.struct r1) sql0 v0).values =
      (s.Delete (.struct r2) sql0 v0).values ∧
    (s.Delete (.struct r1) sql0 v0).outcome =
      (s.Delete (.struct r2) sql0 v0).outcome := by
  have hnm : r1.typeName = r2.typeName := congrArg StructType.name ht
  have hr2 : r2.typeName ≠ "struct" := by rw [← hnm]; exact hr
  have hpk2 : pkIndex r2 = some k := by rw [← pkIndex_congr r1 r2 ht]; exact hpk
  rw [Delete_ok s r1 sql0 v0 k hwf hr hpk, Delete_ok s r2 sql0 v0 k hwf hr2 hpk2]
  refine ⟨?_, ?_, rfl⟩
  · dsimp only
    rw [hnm]
  · dsimp only
    rw [hv]

theorem claim_C10_delete_depends_only_on_key_witness :
    WF (New []) ∧
      (userAlice.typ = Record.typ ⟨"User", [("ID", .vInt 1),
        ("Name", .vStr "Zoe"), ("Email", .vStr "z@y")]⟩) ∧
      ((New []).Delete (.struct userAlice) "" []).sql =
        ((New []).Delete (.struct ⟨"User", [("ID", .vInt 1),
          ("Name", .vStr "Zoe"), ("Email", .vStr "z@y")]⟩) "" []).sql :=
  ⟨WF_New [], by decide,
    (claim_C10_delete_depends_only_on_key (New []) userAlice
      ⟨"User", [("ID", .vInt 1), ("Name", .vStr "Zoe"), ("Email", .vStr "z@y")]⟩
      "" [] 0 (WF_New []) (by decide) (by decide) (by decide) (by decide)).1⟩

/-- Claim C2 (amended: the record must have at most 32 non-zero non-key
fields, since the SET collection array is fixed at 32 slots): for a
named record with a primary-key field and at least one non-zero non-key
field, Update walks the fields in declared order skipping the key,
keeps exactly the non-zero ones, renders their columns with placeholders
at positions `1..K` and the WHERE placeholder at `K+1`, and outputs the
K kept values in SET order followed by the primary-key value. -/
theorem claim_C2_update_set_shape (s : Structsql) (r : Record)
    (sql0 : String) (v0 : List Value) (k : Nat) (hwf : WF s)
    (hr : r.typeName ≠ "struct") (hpk : pkIndex r = some k)
    (hKpos : updateIncluded r.fields (k : Int) 0 ≠ [])
    (hKle : (updateIncluded r.fields (k : Int) 0).length ≤ 32) :
    s.Update (.struct r) sql0 v0 =
      ⟨(s.getTypeInfo r.typ).2,
        "UPDATE " ++ strToLower r.typeName ++ " SET " ++
          setClause s.dbType
            ((updateIncluded r.fields (k : Int) 0).map
              (fun f => strToLower f.1)) 0 ++
          " WHERE id=" ++
          phStr s.dbType ((updateIncluded r.fields (k : Int) 0).length + 1),
        (updateIncluded r.fields (k : Int) 0).map Prod.snd ++
          [(r.fields.getD k dfltField).2],
        .ok⟩ :=
  Update_ok s r sql0 v0 k hwf hr hpk hKpos hKle

theorem claim_C2_update_set_shape_witness :
    WF (New []) ∧ pkIndex userAlice = some 0 ∧
      (New []).Update (.struct userAlice) "" [] =
        ⟨((New []).getTypeInfo userAlice.typ).2,
          "UPDATE " ++ strToLower userAlice.typeName ++ " SET " ++
            setClause (New []).dbType
              ((updateIncluded userAlice.fields ((0 : Nat) : Int) 0).map
                (fun f => strToLower f.1)) 0 ++
            " WHERE id=" ++
            phStr (New []).dbType
              ((updateIncluded userAlice.fields ((0 : Nat) : Int) 0).length + 1),
          (updateIncluded userAlice.fields ((0 : Nat) : Int) 0).map Prod.snd ++
            [(userAlice.fields.getD 0 dfltField).2],
          .ok⟩ :=
  ⟨WF_New [], by decide,
    claim_C2_update_set_shape (New []) userAlice "" [] 0 (WF_New [])
      (by decide) (by decide) (by decide) (by decide)⟩

theorem claim_C2_counterexample :
    ((New []).Update (.struct (wideRecord 35)) "" []).outcome = .crash ∧
      Outcome.crash ≠ Outcome.ok := ⟨by decide, by decide⟩

/-- Claim C6 (amended: "succeeds otherwise" additionally requires at
most 32 non-zero non-key fields — beyond that the fixed 32-slot SET
buffer write is out of bounds and the call panics instead of
succeeding): for a named record with a primary-key field, Update
returns the no-fields-to-update error exactly when every non-key field
is zero-valued. -/
theorem claim_C6_nofields_error (s : Structsql) (r : Record)
    (sql0 : String) (v0 : List Value) (k : Nat) (hwf : WF s)
    (hr : r.typeName ≠ "struct") (hpk : pkIndex r = some k) :
    ((s.Update (.struct r) sql0 v0).outcome = .err "no fields to update" ↔
      updateIncluded r.fields (k : Int) 0 = []) ∧
    ((updateIncluded r.fields (k : Int) 0 ≠ [] ∧
      (updateIncluded r.fields (k : Int) 0).length ≤ 32) →
      (s.Update (.struct r) sql0 v0).outcome = .ok) := by
  constructor
  · constructor
    · intro herr
      by_cases h0 : updateIncluded r.fields (k : Int) 0 = []
      · exact h0
      · by_cases h32 : (updateIncluded r.fields (k : Int) 0).length ≤ 32
        · rw [Update_ok s r sql0 v0 k hwf hr hpk h0 h32] at herr
          simp at herr
        · rw [Update_crash s r sql0 v0 k hwf hr hpk (by omega)] at herr
          simp at herr
    · intro h0
      rw [Update_noFields s r sql0 v0 k hwf hr hpk h0]
  · intro ⟨h0, h32⟩
    rw [Update_ok s r sql0 v0 k hwf hr hpk h0 h32]

theorem claim_C6_nofields_error_witness :
    WF (New []) ∧ pkIndex userAlice = some 0 ∧
      (((New []).Update (.struct userAlice) "" []).outcome =
          .err "no fields to update" ↔
        updateIncluded userAlice.fields ((0 : Nat) : Int) 0 = []) :=
  ⟨WF_New [], by decide,
    (claim_C6_nofields_error (New []) userAlice "" [] 0 (WF_New [])
      (by decide) (by decide)).1⟩

theorem claim_C6_counterexample :
    ((New []).Update (.struct (wideRecord 34)) "" []).outcome = .crash ∧
      Outcome.crash ≠ Outcome.ok ∧
      Outcome.crash ≠ Outcome.err "no fields to update" :=
  ⟨by decide, by decide, by decide⟩

/-- Claim C9: Update collects SET column names into a fixed 32-element
array indexed by a running counter; with at most 32 non-zero non-key
fields every write is in bounds (the call never panics), and a record
with 33 non-zero non-key fields drives the write `setColumns[setCount]`
past the end of the array (the modelled out-of-bounds outcome). -/
theorem claim_C9_set_buffer_bound :
    (∀ (s : Structsql) (r : Record) (sql0 : String) (v0 : List Value)
      (k : Nat), WF s → r.typeName ≠ "struct" → pkIndex r = some k →
      (updateIncluded r.fields (k : Int) 0).length ≤ 32 →
      (s.Update (.struct r) sql0 v0).outcome ≠ .crash) ∧
    ((New []).Update (.struct (wideRecord 33)) "" []).outcome = .crash := by
  constructor
  · intro s r sql0 v0 k hwf hr hpk hle hcrash
    by_cases h0 : updateIncluded r.fields (k : Int) 0 = []
    · rw [Update_noFields s r sql0 v0 k hwf hr hpk h0] at hcrash
      simp at hcrash
    · rw [Update_ok s r sql0 v0 k hwf hr hpk h0 hle] at hcrash
      simp at hcrash
  · decide

theorem claim_C9_set_buffer_bound_witness :
    WF (New []) ∧ pkIndex userAlice = some 0 ∧
      ((New []).Update (.struct userAlice) "" []).outcome ≠ .crash :=
  ⟨WF_New [], by decide,
    claim_C9_set_buffer_bound.1 (New []) userAlice "" [] 0 (WF_New [])
      (by decide) (by decide) (by decide)⟩

theorem claim_C4_counterexample :
    ((New []).InsertPrev "" [] (.struct userAlice)).sql =
      "INSERT INTO user (id, name, email) VALUES (?, ?, ?)" ∧
    ((New []).Insert (.struct userAlice) "" []).sql =
      "INSERT INTO user (id, name, email) VALUES ($1, $2, $3)" ∧
    ((New []).InsertPrev "" [] (.struct userAlice)).sql ≠
      "INSERT INTO users (id, name, email) VALUES (?, ?, ?)" ∧
    ((New []).Insert (.struct userAlice) "" []).sql ≠
      "INSERT INTO users (id, name, email) VALUES ($1, $2, $3)" :=
  ⟨by decide, by decide, by decide, by decide⟩

/-- Claim C4 (amended: no pluralization anywhere in the engine — the
`s`-appending table name existed only in the legacy package-level
Insert revision; the engine Insert, like Update and Delete, uses the
lowercased type name as-is): the full SQL of every builder equals the
verb, then exactly the lowercased type name, then the delimiter of the
rest of the statement — nothing (in particular no `s`) is inserted
between the lowercased name and that delimiter. -/
theorem claim_C4_table_name_no_plural (s : Structsql) (r : Record)
    (sql0 : String) (v0 : List Value) (k : Nat) (hwf : WF s)
    (hr : r.typeName ≠ "struct") (hnf : r.fields ≠ [])
    (hpk : pkIndex r = some k)
    (hKpos : updateIncluded r.fields (k : Int) 0 ≠ [])
    (hKle : (updateIncluded r.fields (k : Int) 0).length ≤ 32) :
    (s.Insert (.struct r) sql0 v0).sql =
      "INSERT INTO " ++ strToLower r.typeName ++ " (" ++
        colsClause (r.fields.map (fun f => strToLower f.1)) 0 ++
        ") VALUES (" ++ phClause s.dbType r.fields.length 0 ++ ")" ∧
    (s.Update (.struct r) sql0 v0).sql =
      "UPDATE " ++ strToLower r.typeName ++ " SET " ++
        setClause s.dbType
          ((updateIncluded r.fields (k : Int) 0).map
            (fun f => strToLower f.1)) 0 ++
        " WHERE id=" ++
        phStr s.dbType ((updateIncluded r.fields (k : Int) 0).length + 1) ∧
    (s.Delete (.struct r) sql0 v0).sql =
      "DELETE FROM " ++ strToLower r.typeName ++ " WHERE id=" ++
        phStr s.dbType 1 := by
  refine ⟨?_, ?_, ?_⟩
  · rw [Insert_ok s r sql0 v0 hwf hr hnf]
  · rw [Update_ok s r sql0 v0 k hwf hr hpk hKpos hKle]
  · rw [Delete_ok s r sql0 v0 k hwf hr hpk]

theorem claim_C4_table_name_no_plural_witness :
    WF (New []) ∧ pkIndex userAlice = some 0 ∧
      ((New []).Insert (.struct userAlice) "" []).sql =
        "INSERT INTO " ++ strToLower userAlice.typeName ++ " (" ++
          colsClause (userAlice.fields.map (fun f => strToLower f.1)) 0 ++
          ") VALUES (" ++
          phClause (New []).dbType userAlice.fields.length 0 ++ ")" :=
  ⟨WF_New [], by decide,
    (claim_C4_table_name_no_plural (New []) userAlice "" [] 0 (WF_New [])
      (by decide) (by decide) (by decide) (by decide) (by decide)).1⟩

/-- Claim C8: calling a builder twice with two distinct instances of the
same record type resolves identical type descriptors and identical
table names both times — the cache hit on the second call does not
alter the resolved columns — and in particular two successive Insert
calls on same-type records render the same SQL text. -/
theorem claim_C8_cache_idempotent (s : Structsql) (r1 r2 : Record)
    (sqlA sqlB : String) (vA vB : List Value) (hwf : WF s)
    (ht : r1.typ = r2.typ) (hr : r1.typeName ≠ "struct")
    (hnf : r1.fields ≠ []) :
    (s.getTypeInfo r1.typ).1 =
      ((s.getTypeInfo r1.typ).2.getTypeInfo r2.typ).1 ∧
    s.getTableName r1.typ = s.getTableName r2.typ ∧
    ((s.Insert (.struct r1) sqlA vA).state.Insert (.struct r2) sqlB vB).sql =
      (s.Insert (.struct r1) sqlA vA).sql := by
  have hwf1 : WF (s.getTypeInfo r1.typ).2 := WF_getTypeInfo s r1.typ hwf
  have hnm : r1.typeName = r2.typeName := congrArg StructType.name ht
  have hr2 : r2.typeName ≠ "struct" := by rw [← hnm]; exact hr
  have hnf2 : r2.fields ≠ [] := by
    intro h2
    apply hnf
    have hfn : r1.fields.map Prod.fst = r2.fields.map Prod.fst :=
      congrArg StructType.fieldNames ht
    rw [h2] at hfn
    simpa using hfn
  have hlen : r1.fields.length = r2.fields.length := by
    have hfn : r1.fields.map Prod.fst = r2.fields.map Prod.fst :=
      congrArg StructType.fieldNames ht
    have := congrArg List.length hfn
    simpa using this
  have hcols : r1.fields.map (fun f => strToLower f.1) =
      r2.fields.map (fun f => strToLower f.1) := by
    have hfn : r1.fields.map Prod.fst = r2.fields.map Prod.fst :=
      congrArg StructType.fieldNames ht
    have := congrArg (List.map strToLower) hfn
    simpa [List.map_map, Function.comp] using this
  refine ⟨?_, ?_, ?_⟩
  · rw [getTypeInfo_fst s r1.typ hwf, ← ht,
      getTypeInfo_fst (s.getTypeInfo r1.typ).2 r1.typ hwf1]
  · simp [Structsql.getTableName, congrArg StructType.name ht]
  · rw [Insert_ok s r1 sqlA vA hwf hr hnf]
    dsimp only
    rw [Insert_ok (s.getTypeInfo r1.typ).2 r2 sqlB vB hwf1 hr2 hnf2]
    dsimp only
    rw [getTypeInfo_dbType, hnm, hcols, hlen]

theorem claim_C8_cache_idempotent_witness :
    WF (New []) ∧
      (userAlice.typ = Record.typ ⟨"User", [("ID", .vInt 9),
        ("Name", .vStr "Bob"), ("Email", .vStr "b@x")]⟩) ∧
      (((New []).Insert (.struct userAlice) "" []).state.Insert
          (.struct ⟨"User", [("ID", .vInt 9), ("Name", .vStr "Bob"),
            ("Email", .vStr "b@x")]⟩) "" []).sql =
        ((New []).Insert (.struct userAlice) "" []).sql :=
  ⟨WF_New [], by decide,
    (claim_C8_cache_idempotent (New []) userAlice
      ⟨"User", [("ID", .vInt 9), ("Name", .vStr "Bob"), ("Email", .vStr "b@x")]⟩
      "" "" [] [] (WF_New []) (by decide) (by decide) (by decide)).2.2⟩

/-- Claim C3 (spec-modelled dialect-aware Insert): for every named
struct record with N fields, Insert renders
`INSERT INTO <table> (<col1>, ..., <colN>) VALUES (<ph1>, ..., <phN>)`
where the columns are every field in declared order, the placeholders
are dialect-rendered for positions 1..N (`$N` under the PostgreSQL
dialect, `?` under SQLite), and the value list holds every field's
value in the same declared order, with no field filtered out. -/
theorem claim_C3_insert_all_fields (s : Structsql) (r : Record)
    (sql0 : String) (v0 : List Value) (hwf : WF s)
    (hr : r.typeName ≠ "struct") (hnf : r.fields ≠ []) :
    s.Insert (.struct r) sql0 v0 =
      ⟨(s.getTypeInfo r.typ).2,
        "INSERT INTO " ++ strToLower r.typeName ++ " (" ++
          colsClause (r.fields.map (fun f => strToLower f.1)) 0 ++
          ") VALUES (" ++ phClause s.dbType r.fields.length 0 ++ ")",
        r.fields.map Prod.snd, .ok⟩ ∧
    (∀ m, phStr PostgreSQL m = "$" ++ natToStr m) ∧
    (∀ m, phStr SQLite m = "?") :=
  ⟨Insert_ok s r sql0 v0 hwf hr hnf, phStr_postgres, phStr_sqlite⟩

theorem claim_C3_insert_all_fields_witness :
    WF (New []) ∧ userAlice.fields ≠ [] ∧
      (New []).Insert (.struct userAlice) "" [] =
        ⟨((New []).getTypeInfo userAlice.typ).2,
          "INSERT INTO " ++ strToLower userAlice.typeName ++ " (" ++
            colsClause (userAlice.fields.map (fun f => strToLower f.1)) 0 ++
            ") VALUES (" ++
            phClause (New []).dbType userAlice.fields.length 0 ++ ")",
          userAlice.fields.map Prod.snd, .ok⟩ :=
  ⟨WF_New [], by decide,
    (claim_C3_insert_all_fields (New []) userAlice "" [] (WF_New [])
      (by decide) (by decide)).1⟩

/-- Claim C1: for every builder call (Insert, Update, Delete) that
returns without error, the number of placeholder occurrences in the
returned SQL equals the length of the returned value list, and under
the numbered (PostgreSQL) dialect the Nth placeholder occurrence read
left to right carries exactly the position number N — so the Nth value
corresponds to the Nth placeholder even as Update filters fields and
Update/Delete move the key to the end. -/
theorem claim_C1_ordering_invariant (s : Structsql) (x : GoVal)
    (sql0 : String) (v0 : List Value) (hwf : WF s)
    (hd : s.dbType = PostgreSQL ∨ s.dbType = SQLite)
    (hcl : ∀ r, x = .struct r → cleanRecord r = true) :
    ((s.Insert x sql0 v0).outcome = .ok →
      countCh (phChar s.dbType) (s.Insert x sql0 v0).sql =
        (s.Insert x sql0 v0).values.length ∧
      (s.dbType = PostgreSQL →
        scanDollars (s.Insert x sql0 v0).sql.data =
          List.range' 1 (s.Insert x sql0 v0).values.length)) ∧
    ((s.Update x sql0 v0).outcome = .ok →
      countCh (phChar s.dbType) (s.Update x sql0 v0).sql =
        (s.Update x sql0 v0).values.length ∧
      (s.dbType = PostgreSQL →
        scanDollars (s.Update x sql0 v0).sql.data =
          List.range' 1 (s.Update x sql0 v0).values.length)) ∧
    ((s.Delete x sql0 v0).outcome = .ok →
      countCh (phChar s.dbType) (s.Delete x sql0 v0).sql =
        (s.Delete x sql0 v0).values.length ∧
      (s.dbType = PostgreSQL →
        scanDollars (s.Delete x sql0 v0).sql.data =
          List.range' 1 (s.Delete x sql0 v0).values.length)) := by
  refine ⟨?_, ?_, ?_⟩
  · intro hok
    obtain ⟨r, hx, hr, hnf⟩ := Insert_ok_inv s x sql0 v0 hwf hok
    subst hx
    have hclr := hcl r rfl
    have htab := cleanRecord_table r hclr
    have hcolsP : ∀ c ∈ r.fields.map (fun f => strToLower f.1),
        countCh '$' c = 0 := by
      intro c hc
      rw [List.mem_map] at hc
      obtain ⟨f, hf, hfc⟩ := hc
      rw [← hfc]
      exact (cleanRecord_field r hclr f hf).1
    have hcolsQ : ∀ c ∈ r.fields.map (fun f => strToLower f.1),
        countCh '?' c = 0 := by
      intro c hc
      rw [List.mem_map] at hc
      obtain ⟨f, hf, hfc⟩ := hc
      rw [← hfc]
      exact (cleanRecord_field r hclr f hf).2
    rw [Insert_ok s r sql0 v0 hwf hr hnf]
    dsimp only
    constructor
    · rcases hd with hdp | hds
      · rw [hdp, phChar_postgres]
        rw [countCh_insertSql PostgreSQL '$' _ _ _ countCh_phStr_postgres
          (by decide) (by decide) (by decide) (by decide) (by decide)
          htab.1 hcolsP]
        simp
      · rw [hds, phChar_sqlite]
        rw [countCh_insertSql SQLite '?' _ _ _ countCh_phStr_sqlite
          (by decide) (by decide) (by decide) (by decide) (by decide)
          htab.2 hcolsQ]
        simp
    · intro hdp
      rw [hdp]
      rw [scanDollars_insertSql _ _ _ htab.1 hcolsP]
      simp
  · intro hok
    obtain ⟨r, k, hx, hr, hpk, hKpos, hKle⟩ :=
      Update_ok_inv s x sql0 v0 hwf hok
    subst hx
    have hclr := hcl r rfl
    have htab := cleanRecord_table r hclr
    have hcolsP : ∀ c ∈ (updateIncluded r.fields (k : Int) 0).map
        (fun f => strToLower f.1), countCh '$' c = 0 := by
      intro c hc
      rw [List.mem_map] at hc
      obtain ⟨f, hf, hfc⟩ := hc
      rw [← hfc]
      exact (cleanRecord_field r hclr f
        (updateIncluded_mem r.fields (k : Int) 0 f hf)).1
    have hcolsQ : ∀ c ∈ (updateIncluded r.fields (k : Int) 0).map
        (fun f => strToLower f.1), countCh '?' c = 0 := by
      intro c hc
      rw [List.mem_map] at hc
      obtain ⟨f, hf, hfc⟩ := hc
      rw [← hfc]
      exact (cleanRecord_field r hclr f
        (updateIncluded_mem r.fields (k : Int) 0 f hf)).2
    rw [Update_ok s r sql0 v0 k hwf hr hpk hKpos hKle]
    dsimp only
    have hlen : ((updateIncluded r.fields (k : Int) 0).map
        (fun f => strToLower f.1)).length =
        (updateIncluded r.fields (k : Int) 0).length := by simp
    constructor
    · rcases hd with hdp | hds
      · rw [hdp, phChar_postgres]
        have hcnt := countCh_updateSql PostgreSQL '$'
          (strToLower r.typeName)
          ((updateIncluded r.fields (k : Int) 0).map (fun f => strToLower f.1))
          countCh_phStr_postgres (by decide) (by decide) (by decide)
          (by decide) (by decide) htab.1 hcolsP
        rw [hlen] at hcnt
        rw [hcnt]
        simp
      · rw [hds, phChar_sqlite]
        have hcnt := countCh_updateSql SQLite '?'
          (strToLower r.typeName)
          ((updateIncluded r.fields (k : Int) 0).map (fun f => strToLower f.1))
          countCh_phStr_sqlite (by decide) (by decide) (by decide)
          (by decide) (by decide) htab.2 hcolsQ
        rw [hlen] at hcnt
        rw [hcnt]
        simp
    · intro hdp
      rw [hdp]
      have hscan := scanDollars_updateSql (strToLower r.typeName)
        ((updateIncluded r.fields (k : Int) 0).map (fun f => strToLower f.1))
        htab.1 hcolsP
      rw [hlen] at hscan
      rw [hscan]
      simp
  · intro hok
    obtain ⟨r, k, hx, hr, hpk⟩ := Delete_ok_inv s x sql0 v0 hwf hok
    subst hx
    have hclr := hcl r rfl
    have htab := cleanRecord_table r hclr
    rw [Delete_ok s r sql0 v0 k hwf hr hpk]
    dsimp only
    constructor
    · rcases hd with hdp | hds
      · rw [hdp, phChar_postgres]
        rw [countCh_deleteSql PostgreSQL '$' _ countCh_phStr_postgres
          (by decide) (by decide) htab.1]
        simp
      · rw [hds, phChar_sqlite]
        rw [countCh_deleteSql SQLite '?' _ countCh_phStr_sqlite
          (by decide) (by decide) htab.2]
        simp
    · intro hdp
      rw [hdp]
      rw [scanDollars_deleteSql _ htab.1]
      simp [List.range']

theorem claim_C1_ordering_invariant_witness :
    WF (New []) ∧ ((New []).dbType = PostgreSQL ∨ (New []).dbType = SQLite) ∧
      cleanRecord userAlice = true ∧
      (((New []).Update (.struct userAlice) "" []).outcome = .ok →
        countCh (phChar (New []).dbType)
            ((New []).Update (.struct userAlice) "" []).sql =
          ((New []).Update (.struct userAlice) "" []).values.length) :=
  ⟨WF_New [], Or.inl rfl, by decide,
    fun hok => ((claim_C1_ordering_invariant (New []) (.struct userAlice)
      "" [] (WF_New []) (Or.inl rfl)
      (fun r hr => by injection hr with h2; subst h2; decide)).2.1 hok).1⟩
